import Mathlib

/-!
Verification of the vectordb semantic-memory engine.

This file shallowly embeds the parts of the `vectordb` package that the
checked claims concern: the deterministic UUID layer (`uuidv8.py`), the
decision registry (`decision_registry.py`), conflict registration
(`conflicts.py`), lineage edges (`lineage.py`), the compression registry
(`compression_registry.py`), the conversation registry
(`conversation_registry.py`), the attention recall engine (`attention.py`)
and the gravity orchestrator (`gravity.py`).

Conventions of the embedding:
* machine integers are `Nat` with explicit `% 2^w` where Python's
  `struct.pack` masks widths;
* `bytes` values are `List Nat` with every element `< 256`;
* floats are modelled as `ℚ` (the claims checked here depend only on
  ordering and exact arithmetic of the scores, not on IEEE rounding);
* wall-clock timestamps are passed in explicitly (`datetime.now` becomes a
  `now` argument), and remote effects (embedding provider, vector search,
  blob store) become explicit inputs, with counters recording how many
  embedding calls a code path performs.
-/

set_option maxRecDepth 100000

namespace VectorDB

/-! ## Byte primitives -/

/-- 2^32, the word modulus of SHA-1 and SHA-256. -/
def M32 : Nat := 2 ^ 32

/-- Rotate a 32-bit word right by `n`. -/
def rotr32 (n x : Nat) : Nat := ((x >>> n) ||| (x <<< (32 - n))) % M32

/-- Rotate a 32-bit word left by `n`. -/
def rotl32 (n x : Nat) : Nat := ((x <<< n) ||| (x >>> (32 - n))) % M32

/-- Big-endian byte string of `v`, `k` bytes wide (mirrors
`struct.pack(">Q", v)` for `k = 8`; the value is reduced mod `2^(8*k)`). -/
def beBytes : Nat → Nat → List Nat
  | 0, _ => []
  | k + 1, v => beBytes k (v / 256) ++ [v % 256]

/-- Split a list into consecutive chunks of size `n`; `fuel` bounds the
recursion and is instantiated with the list length. -/
def chunksOf (n : Nat) : Nat → List α → List (List α)
  | 0, _ => []
  | _, [] => []
  | fuel + 1, l => l.take n :: chunksOf n fuel (l.drop n)

/-- Big-endian 32-bit word from (up to) four bytes. -/
def wordOfBytesBE (bs : List Nat) : Nat :=
  bs.foldl (fun acc b => acc * 256 + b) 0

/-- Group a byte string into big-endian 32-bit words. -/
def wordsOfBytesBE (bs : List Nat) : List Nat :=
  (chunksOf 4 bs.length bs).map wordOfBytesBE

/-! ## SHA-256 (`hashlib.sha256`) -/

/-- The SHA-256 round constants (decimal). -/
def sha256K : List Nat :=
  [1116352408, 1899447441, 3049323471, 3921009573, 961987163, 1508970993,
    2453635748, 2870763221, 3624381080, 310598401, 607225278, 1426881987,
    1925078388, 2162078206, 2614888103, 3248222580, 3835390401, 4022224774,
    264347078, 604807628, 770255983, 1249150122, 1555081692, 1996064986,
    2554220882, 2821834349, 2952996808, 3210313671, 3336571891, 3584528711,
    113926993, 338241895, 666307205, 773529912, 1294757372, 1396182291,
    1695183700, 1986661051, 2177026350, 2456956037, 2730485921, 2820302411,
    3259730800, 3345764771, 3516065817, 3600352804, 4094571909, 275423344,
    430227734, 506948616, 659060556, 883997877, 958139571, 1322822218,
    1537002063, 1747873779, 1955562222, 2024104815, 2227730452, 2361852424,
    2428436474, 2756734187, 3204031479, 3329325298]

/-- The SHA-256 initial hash state. -/
def sha256IV : List Nat :=
  [0x6a09e667, 0xbb67ae85, 0x3c6ef372, 0xa54ff53a,
   0x510e527f, 0x9b05688c, 0x1f83d9ab, 0x5be0cd19]

/-- Extend the 16 message-schedule words of one block to 64. -/
def sha256Extend (w : Array Nat) : Array Nat :=
  (List.range 48).foldl
    (fun a i =>
      let w15 := a.getD (i + 1) 0
      let w2 := a.getD (i + 14) 0
      let s0 := rotr32 7 w15 ^^^ rotr32 18 w15 ^^^ (w15 >>> 3)
      let s1 := rotr32 17 w2 ^^^ rotr32 19 w2 ^^^ (w2 >>> 10)
      a.push ((a.getD i 0 + s0 + a.getD (i + 9) 0 + s1) % M32))
    w

/-- One SHA-256 compression round; the state is the eight working words. -/
def sha256Step (st : List Nat) (kw : Nat × Nat) : List Nat :=
  match st with
  | [a, b, c, d, e, f, g, h] =>
    let s1 := rotr32 6 e ^^^ rotr32 11 e ^^^ rotr32 25 e
    let ch := (e &&& f) ^^^ ((e ^^^ (M32 - 1)) &&& g)
    let t1 := (h + s1 + ch + kw.1 + kw.2) % M32
    let s0 := rotr32 2 a ^^^ rotr32 13 a ^^^ rotr32 22 a
    let maj := (a &&& b) ^^^ (a &&& c) ^^^ (b &&& c)
    let t2 := (s0 + maj) % M32
    [(t1 + t2) % M32, a, b, c, (d + t1) % M32, e, f, g]
  | _ => st

/-- Compress one 64-byte block into the running hash state. -/
def sha256Block (h : List Nat) (block : List Nat) : List Nat :=
  let ws := sha256Extend (Array.mk (wordsOfBytesBE block))
  let final := (sha256K.zip ws.toList).foldl sha256Step h
  (h.zip final).map fun p => (p.1 + p.2) % M32

/-- SHA padding: `0x80`, zeros to 56 mod 64, then the bit length as a
big-endian 64-bit integer (shared by SHA-1 and SHA-256). -/
def shaPad (msg : List Nat) : List Nat :=
  let L := msg.length
  let zeros := (120 - (L + 1) % 64) % 64
  msg ++ [0x80] ++ List.replicate zeros 0 ++ beBytes 8 (L * 8)

/-- SHA-256 digest (32 bytes) of a byte string. -/
def sha256Bytes (msg : List Nat) : List Nat :=
  let padded := shaPad msg
  let blocks := chunksOf 64 padded.length padded
  (blocks.foldl sha256Block sha256IV).flatMap (beBytes 4)

/-! ## SHA-1 (`hashlib.sha1`, used by `uuid.uuid5`) -/

/-- The SHA-1 initial hash state. -/
def sha1IV : List Nat :=
  [0x67452301, 0xEFCDAB89, 0x98BADCFE, 0x10325476, 0xC3D2E1F0]

/-- Extend the 16 message-schedule words of one block to 80. -/
def sha1Extend (w : Array Nat) : Array Nat :=
  (List.range 64).foldl
    (fun a i =>
      let x := a.getD (i + 13) 0 ^^^ a.getD (i + 8) 0 ^^^
        a.getD (i + 2) 0 ^^^ a.getD i 0
      a.push (rotl32 1 x))
    w

/-- The SHA-1 round function and constant for round `i`. -/
def sha1FK (i b c d : Nat) : Nat × Nat :=
  if i < 20 then ((b &&& c) ||| ((b ^^^ (M32 - 1)) &&& d), 0x5A827999)
  else if i < 40 then (b ^^^ c ^^^ d, 0x6ED9EBA1)
  else if i < 60 then ((b &&& c) ||| (b &&& d) ||| (c &&& d), 0x8F1BBCDC)
  else (b ^^^ c ^^^ d, 0xCA62C1D6)

/-- One SHA-1 compression round; the state is the five working words. -/
def sha1Step (st : List Nat) (iw : Nat × Nat) : List Nat :=
  match st with
  | [a, b, c, d, e] =>
    let fk := sha1FK iw.1 b c d
    let temp := (rotl32 5 a + fk.1 + e + fk.2 + iw.2) % M32
    [temp, a, rotl32 30 b, c, d]
  | _ => st

/-- Compress one 64-byte block into the running SHA-1 state. -/
def sha1Block (h : List Nat) (block : List Nat) : List Nat :=
  let ws := sha1Extend (Array.mk (wordsOfBytesBE block))
  let final := ws.toList.enum.foldl sha1Step h
  (h.zip final).map fun p => (p.1 + p.2) % M32

/-- SHA-1 digest (20 bytes) of a byte string. -/
def sha1Bytes (msg : List Nat) : List Nat :=
  let padded := shaPad msg
  let blocks := chunksOf 64 padded.length padded
  (blocks.foldl sha1Block sha1IV).flatMap (beBytes 4)

/-! ## UTF-8 and hex (`str.encode("utf-8")`, `.hexdigest()`) -/

/-- UTF-8 encoding of one code point. -/
def utf8Char (c : Char) : List Nat :=
  let n := c.toNat
  if n < 0x80 then [n]
  else if n < 0x800 then
    [0xC0 ||| (n >>> 6), 0x80 ||| (n &&& 0x3F)]
  else if n < 0x10000 then
    [0xE0 ||| (n >>> 12), 0x80 ||| ((n >>> 6) &&& 0x3F), 0x80 ||| (n &&& 0x3F)]
  else
    [0xF0 ||| (n >>> 18), 0x80 ||| ((n >>> 12) &&& 0x3F),
     0x80 ||| ((n >>> 6) &&& 0x3F), 0x80 ||| (n &&& 0x3F)]

/-- UTF-8 encoding of a string, as Python's `str.encode("utf-8")`. -/
def utf8 (s : String) : List Nat := s.data.flatMap utf8Char

/-- Lowercase hex digit for a value `< 16`. -/
def hexDigit (n : Nat) : Char := "0123456789abcdef".data.getD n '0'

/-- Two lowercase hex digits of one byte. -/
def byteHex (b : Nat) : List Char := [hexDigit (b / 16), hexDigit (b % 16)]

/-- Lowercase hex string of a byte string (Python `.hexdigest()` /
`bytes.hex()`). -/
def bytesToHex (bs : List Nat) : String := String.mk (bs.flatMap byteHex)

/-- `hashlib.sha256(s.encode("utf-8")).hexdigest()`. -/
def sha256Hex (s : String) : String := bytesToHex (sha256Bytes (utf8 s))

/-! ## UUID layer (`vectordb/uuidv8.py`) -/

/-- A UUID as its 16 raw bytes (`uuid.UUID.bytes`). -/
structure UUID where
  bytes : List Nat
deriving DecidableEq, Repr

/-- Force the version nibble: `bytes[6] = (bytes[6] & 0x0F) | (ver << 4)`. -/
def forceVersion (ver : Nat) (bs : List Nat) : List Nat :=
  bs.set 6 ((bs.getD 6 0 &&& 0x0F) ||| (ver <<< 4))

/-- Force the RFC 4122 variant: `bytes[8] = (bytes[8] & 0x3F) | 0x80`. -/
def forceVariant (bs : List Nat) : List Nat :=
  bs.set 8 ((bs.getD 8 0 &&& 0x3F) ||| 0x80)

/-- Canonical lowercase hyphenated form, `str(uuid.UUID(...))`. -/
def UUID.str (u : UUID) : String :=
  bytesToHex (u.bytes.take 4) ++ "-" ++
  bytesToHex ((u.bytes.drop 4).take 2) ++ "-" ++
  bytesToHex ((u.bytes.drop 6).take 2) ++ "-" ++
  bytesToHex ((u.bytes.drop 8).take 2) ++ "-" ++
  bytesToHex (u.bytes.drop 10)

/-- `uuid.uuid5(namespace, name)`: SHA-1 of namespace bytes and UTF-8 name,
truncated to 16 bytes with version 5 and the RFC 4122 variant forced. -/
def uuid5 (namespace' : UUID) (name : String) : UUID :=
  ⟨forceVariant (forceVersion 5 ((sha1Bytes (namespace'.bytes ++ utf8 name)).take 16))⟩

/-- The RFC 4122 DNS namespace, `uuid.UUID("6ba7b810-9dad-11d1-80b4-00c04fd430c8")`. -/
def DNS_NAMESPACE : UUID :=
  ⟨[0x6b, 0xa7, 0xb8, 0x10, 0x9d, 0xad, 0x11, 0xd1,
    0x80, 0xb4, 0x00, 0xc0, 0x4f, 0xd4, 0x30, 0xc8]⟩

/-- `BASE_UUID = uuid.uuid5(DNS_NAMESPACE, "forgeos.local")`. -/
def BASE_UUID : UUID := uuid5 DNS_NAMESPACE "forgeos.local"

/-- `v5(name, namespace)` from `uuidv8.py` (namespace defaults to
`BASE_UUID`). -/
def v5 (name : String) (namespace' : UUID := BASE_UUID) : UUID :=
  uuid5 namespace' name

/-- `v8(namespace, timestamp_ms, random)` from `uuidv8.py`.

The first six bytes are `struct.pack(">Q", timestamp_ms)[2:]` — the low 48
bits of the timestamp, big-endian (Python's `struct.pack` requires
`timestamp_ms < 2^64`; the embedding reduces mod `2^64` where the program
would raise `struct.error`).  The ten-byte suffix is random entropy
(`os.urandom(10)`, modelled as an explicit `entropy` argument) when
`random` is true, else the first ten bytes of
`SHA-256(namespace.bytes ++ pack(">Q", timestamp_ms))`.  Byte 6 gets
version nibble 8 and byte 8 the RFC 4122 variant. -/
def v8 (namespace' : UUID) (timestamp_ms : Nat) (random : Bool)
    (entropy : List Nat) : UUID :=
  let packed := beBytes 8 (timestamp_ms % 2 ^ 64)
  let timeBytes := packed.drop 2
  let suffix :=
    if random then entropy.take 10
    else (sha256Bytes (namespace'.bytes ++ packed)).take 10
  ⟨forceVariant (forceVersion 8 (timeBytes ++ suffix))⟩

/-- `v8_from_string(name, namespace, timestamp_ms)`: derive a v5 namespace
from the name, then a deterministic v8 (the Python call leaves `random` at
its default `False`, so no entropy enters). -/
def v8_from_string (name : String) (namespace' : UUID) (timestamp_ms : Nat) : UUID :=
  v8 (uuid5 namespace' name) timestamp_ms false []

/-- `composite_pair(a, b)`: sort the two UUIDs by their string form,
concatenate the strings, and derive a v5 in the base namespace. -/
def composite_pair (a b : UUID) : UUID :=
  let fst := if b.str < a.str then b else a
  let snd := if b.str < a.str then a else b
  v5 (fst.str ++ snd.str)

/-- `_extract_timestamp(uid)`: the 48-bit big-endian prefix when the
version nibble is 8, else the current time (passed here as `nowMs`); the
prefix is accumulated as `ts = (ts << 8) | uid_bytes[i]` for `i < 6`. -/
def extract_timestamp (nowMs : Nat) (u : UUID) : Nat :=
  let version := (u.bytes.getD 6 0 >>> 4) &&& 0x0F
  if version ≠ 8 then nowMs
  else (List.range 6).foldl (fun ts i => (ts <<< 8) ||| u.bytes.getD i 0) 0

/-- `is_v8(uid)`: the version nibble is 8. -/
def is_v8 (u : UUID) : Bool :=
  ((u.bytes.getD 6 0 >>> 4) &&& 0x0F) == 8

/-- `decision_id(project_uuid, decision_text, originated_conversation_id)`:
v5 of the 16-hex-char SHA-256 text hash concatenated with the conversation's
string form, then a v8 stamped with the conversation's embedded timestamp
(`nowMs` feeds the non-v8 fallback of `_extract_timestamp`). -/
def decision_id (nowMs : Nat) (project_uuid : UUID) (decision_text : String)
    (originated_conversation_id : UUID) : UUID :=
  let text_hash := (sha256Hex decision_text).take 16
  let content := text_hash ++ originated_conversation_id.str
  let derived := uuid5 project_uuid content
  let ts_ms := extract_timestamp nowMs originated_conversation_id
  v8 derived ts_ms false []

/-- `lineage_id(source, target) = composite_pair(source, target)`. -/
def lineage_id (source target : UUID) : UUID := composite_pair source target

/-! ## Store helpers

MongoDB collections are lists of documents; `update_one` edits the first
matching document, `insert_one` appends, `$addToSet` with `$each` appends
each value not already present, in order. -/

/-- `update_one`: apply `f` to the first element satisfying `p`. -/
def updateFirst (p : α → Bool) (f : α → α) : List α → List α
  | [] => []
  | x :: xs => if p x then f x :: xs else x :: updateFirst p f xs

/-- `$addToSet` with `$each`: append the values not already present,
keeping encounter order. -/
def addToSetList [DecidableEq α] (l : List α) (vals : List α) : List α :=
  vals.foldl (fun acc v => if v ∈ acc then acc else acc ++ [v]) l

/-! ## Display IDs (`vectordb/display_ids.py`) -/

/-- `DEFAULT_PREFIX_MAP`. -/
def DEFAULT_PREFIX_MAP : List (String × String) :=
  [("Forge OS", "FORGE"), ("The Nexus", "NEXUS"), ("Reality Compiler", "RC"),
   ("Consciousness Physics", "CPHYS"), ("Wavelength", "WAVE"),
   ("Attention Currency", "ATTN"), ("Applied Alchemy", "AALCH"),
   ("Cartographer's Codex", "CODEX"), ("The Evaluator", "EVAL"),
   ("The Arbiter", "ARBITER"), ("Mission Control", "MISSION"),
   ("The Guardian", "GUARD")]

/-- `ENTITY_TYPE_MAP`. -/
def ENTITY_TYPE_MAP : List (String × String) :=
  [("decision", "D"), ("thread", "T"), ("artifact", "A")]

/-- One row of the `display_id_counters` collection. -/
structure CounterRow where
  project_name : String
  project_pfx : String
  entity_type : String
  next_sequence : Nat
  created_at : String
deriving DecidableEq, Repr

/-- One row of the `display_id_index` collection. -/
structure DisplayIndexRow where
  display_id : String
  entity_uuid : String
  collection : String
  project : String
  updated_at : String
  created_at : String
deriving DecidableEq, Repr

/-- `get_project_prefix`: stored counter row first, then the static map,
then up to five uppercase alphanumeric characters of the name (`"PROJ"`
when that leaves nothing). -/
def get_project_pfx (counters : List CounterRow) (project_name : String) : String :=
  match counters.find? (fun r => r.project_name == project_name) with
  | some row => row.project_pfx
  | none =>
    match DEFAULT_PREFIX_MAP.lookup project_name with
    | some p => p
    | none =>
      let auto := String.mk ((project_name.toUpper.data.filter Char.isAlphanum).take 5)
      if auto == "" then "PROJ" else auto

/-- Python's `f"{n:04d}"`: zero-pad to four digits, widening naturally. -/
def pad4 (n : Nat) : String :=
  let s := toString n
  if s.length ≥ 4 then s else String.mk (List.replicate (4 - s.length) '0') ++ s

/-- `allocate_display_id`: atomic `find_one_and_update` with `$inc` on the
`(project_prefix, entity_type)` counter row, upserting at sequence 1, and
the formatted `PREFIX-T-NNNN` id (Python raises `IndexError` for an empty
`entity_type` outside the type map; callers always pass a known key, and
the embedding defaults the initial to `'X'` there). -/
def allocate_display_id (now : String) (counters : List CounterRow)
    (project_name entity_type : String) : List CounterRow × String :=
  let pfx := get_project_pfx counters project_name
  let type_code := (ENTITY_TYPE_MAP.lookup entity_type).getD
    (String.mk [(entity_type.data.headD 'X').toUpper])
  match counters.find? (fun r => r.project_pfx == pfx && r.entity_type == type_code) with
  | some row =>
    let seq := row.next_sequence + 1
    (updateFirst (fun r => r.project_pfx == pfx && r.entity_type == type_code)
       (fun r => { r with next_sequence := seq }) counters,
     pfx ++ "-" ++ type_code ++ "-" ++ pad4 seq)
  | none =>
    (counters ++ [⟨project_name, pfx, type_code, 1, now⟩],
     pfx ++ "-" ++ type_code ++ "-" ++ pad4 1)

/-- `register_display_id`: upsert the reverse-index row keyed by the
display id. -/
def register_display_id (now : String) (index : List DisplayIndexRow)
    (display_id entity_uuid collection_name project_name : String) :
    List DisplayIndexRow :=
  match index.find? (fun r => r.display_id == display_id) with
  | some _ =>
    updateFirst (fun r => r.display_id == display_id)
      (fun r => { r with entity_uuid := entity_uuid, collection := collection_name,
                         project := project_name, updated_at := now }) index
  | none =>
    index ++ [⟨display_id, entity_uuid, collection_name, project_name, now, now⟩]

/-! ## Decision registry (`vectordb/decision_registry.py`,
`vectordb/conflicts.py`) -/

/-- A document of the `decision_registry` collection.  `text_blob_ref` and
`rationale_blob_ref` are optional because the Python document only carries
those keys when the blob store returned a ref. -/
structure Decision where
  uuid : String
  local_id : String
  global_display_id : String
  text : String
  text_hash : String
  embedding : List ℚ
  project : String
  project_uuid : String
  originated_conversation : String
  epistemic_tier : Option ℚ
  status : String
  dependents : List String
  dependencies : List String
  conflicts_with : List String
  superseded_by : Option String
  rationale : String
  hops_since_validated : Nat
  last_validated : String
  created_at : String
  updated_at : String
  text_blob_ref : Option String := none
  rationale_blob_ref : Option String := none
deriving DecidableEq, Repr

/-- The part of a `detect_conflicts` hit that `upsert_decision` consumes
(`conflict["existing_uuid"]` and `conflict["signal"]`; the remaining payload
fields are returned to the caller untouched). -/
structure ConflictHit where
  existing_uuid : String
  signal : String
deriving DecidableEq, Repr

/-- `register_conflict(uuid_a, uuid_b, signal_type)`: symmetric
`$addToSet` of each UUID into the other record's `conflicts_with`
(`update_one` on `uuid_a` first, then on `uuid_b`; the signal is not
stored). -/
def register_conflict (uuid_a uuid_b : String) (_signal_type : String)
    (decisions : List Decision) : List Decision :=
  let step1 := updateFirst (fun d => d.uuid == uuid_a)
    (fun d => { d with conflicts_with := addToSetList d.conflicts_with [uuid_b] })
    decisions
  updateFirst (fun d => d.uuid == uuid_b)
    (fun d => { d with conflicts_with := addToSetList d.conflicts_with [uuid_a] })
    step1

/-- The store state an `upsert_decision` call touches, plus a counter of
embedding-provider calls made so far (each `embed_texts` invocation adds
one). -/
structure DecisionDB where
  decisions : List Decision
  counters : List CounterRow
  displayIndex : List DisplayIndexRow
  events : List String
  embedCalls : Nat
deriving DecidableEq, Repr

/-- The effectful context of one `upsert_decision` call: the wall clock,
the embedding provider's reply, the blob store, and the outcome of the
best-effort conflict detection (`none` models `detect_conflicts` raising,
which the `try/except` swallows). -/
structure UpsertEnv where
  now : String
  nowMs : Nat
  embedOut : List (List ℚ)
  blob : String → Option String
  detected : Option (List ConflictHit)

/-- The keyword arguments of `upsert_decision`, with their Python
defaults. -/
structure UpsertArgs where
  local_id : String
  text : String
  project : String
  project_uuid : UUID
  originated_conversation_id : UUID
  epistemic_tier : Option ℚ := none
  status : String := "active"
  dependents : Option (List String) := none
  dependencies : Option (List String) := none
  rationale : Option String := none

/-- The dict returned by `upsert_decision` (`global_display_id` is only
present on the insert branch). -/
structure UpsertResult where
  action : String
  uuid : String
  global_display_id : Option String
  conflicts : List ConflictHit
deriving DecidableEq, Repr

/-- `EMBEDDING_DIMENSIONS` (config.py). -/
def EMBEDDING_DIMENSIONS : Nat := 1024

/-- `embeddings[0] if embeddings else [0.0] * EMBEDDING_DIMENSIONS`. -/
def embeddingOrZero (embedOut : List (List ℚ)) : List ℚ :=
  embedOut.headD (List.replicate EMBEDDING_DIMENSIONS (0 : ℚ))

/-- `_validate_decision`: same UUID and same text hash — set
`last_validated`, reset `hops_since_validated`, touch `updated_at`; no
embedding call, no display-id allocation. -/
def validateDecision (env : UpsertEnv) (decision_uuid : String)
    (db : DecisionDB) : DecisionDB × UpsertResult :=
  let decisions := updateFirst (fun d => d.uuid == decision_uuid)
    (fun d => { d with last_validated := env.now, hops_since_validated := 0,
                       updated_at := env.now })
    db.decisions
  ({ db with decisions := decisions,
             events := db.events ++ ["graph.decision.validated"] },
   { action := "validated", uuid := decision_uuid,
     global_display_id := none, conflicts := [] })

/-- `_update_decision`: same UUID, different text hash — one re-embedding,
then a `$set` of the changed fields (optional arguments only when
supplied). -/
def updateDecision (env : UpsertEnv) (a : UpsertArgs)
    (decision_uuid text_hash : String) (db : DecisionDB) :
    DecisionDB × UpsertResult :=
  let embedding := embeddingOrZero env.embedOut
  let text_blob_ref := env.blob a.text
  let upd := fun (d : Decision) =>
    let d := { d with local_id := a.local_id, text := a.text.take 8000,
                      text_hash := text_hash, embedding := embedding,
                      status := a.status, hops_since_validated := 0,
                      last_validated := env.now, updated_at := env.now }
    let d := match text_blob_ref with
      | some r => { d with text_blob_ref := some r }
      | none => d
    let d := match a.epistemic_tier with
      | some t => { d with epistemic_tier := some t }
      | none => d
    let d := match a.dependents with
      | some l => { d with dependents := l }
      | none => d
    let d := match a.dependencies with
      | some l => { d with dependencies := l }
      | none => d
    match a.rationale with
    | some r =>
      let d := { d with rationale := r }
      match env.blob r with
      | some br => { d with rationale_blob_ref := some br }
      | none => d
    | none => d
  ({ db with decisions := updateFirst (fun d => d.uuid == decision_uuid) upd db.decisions,
             embedCalls := db.embedCalls + 1,
             events := db.events ++ ["graph.decision.updated"] },
   { action := "updated", uuid := decision_uuid,
     global_display_id := none, conflicts := [] })

/-- The document `_insert_decision` builds and inserts. -/
def insertDoc (env : UpsertEnv) (a : UpsertArgs)
    (decision_uuid text_hash display_id : String) : Decision :=
  { uuid := decision_uuid, local_id := a.local_id,
    global_display_id := display_id, text := a.text.take 8000,
    text_hash := text_hash, embedding := embeddingOrZero env.embedOut,
    project := a.project,
    project_uuid := a.project_uuid.str,
    originated_conversation := a.originated_conversation_id.str,
    epistemic_tier := a.epistemic_tier, status := a.status,
    dependents := a.dependents.getD [], dependencies := a.dependencies.getD [],
    conflicts_with := [], superseded_by := none,
    rationale := a.rationale.getD "", hops_since_validated := 0,
    last_validated := env.now, created_at := env.now, updated_at := env.now,
    text_blob_ref := env.blob a.text,
    rationale_blob_ref := match a.rationale with
      | some r => if r == "" then none else env.blob r
      | none => none }

/-- `_insert_decision`: new UUID — one embedding, display-id allocation,
document insert, reverse-index registration, then best-effort conflict
detection and symmetric registration. -/
def insertDecision (env : UpsertEnv) (a : UpsertArgs)
    (decision_uuid text_hash : String) (db : DecisionDB) :
    DecisionDB × UpsertResult :=
  let alloc := allocate_display_id env.now db.counters a.project "decision"
  let display_id := alloc.2
  let doc : Decision := insertDoc env a decision_uuid text_hash display_id
  let decisions1 := db.decisions ++ [doc]
  let index' := register_display_id env.now db.displayIndex display_id
    decision_uuid "decision_registry" a.project
  let post := match env.detected with
    | none => (decisions1, ([] : List ConflictHit))
    | some cs =>
      (cs.foldl
         (fun ds (c : ConflictHit) =>
           register_conflict decision_uuid c.existing_uuid c.signal ds)
         decisions1, cs)
  ({ db with decisions := post.1, counters := alloc.1, displayIndex := index',
             embedCalls := db.embedCalls + 1,
             events := db.events ++ ["graph.decision.inserted"] },
   { action := "inserted", uuid := decision_uuid,
     global_display_id := some display_id, conflicts := post.2 })

/-- `upsert_decision`: derive the decision UUID and text hash, then
dispatch on whether a record with that UUID exists and whether its stored
hash matches. -/
def upsert_decision (env : UpsertEnv) (a : UpsertArgs) (db : DecisionDB) :
    DecisionDB × UpsertResult :=
  let decision_uuid :=
    (decision_id env.nowMs a.project_uuid a.text a.originated_conversation_id).str
  let text_hash := (sha256Hex a.text).take 16
  match db.decisions.find? (fun d => d.uuid == decision_uuid) with
  | some existing =>
    if existing.text_hash == text_hash then
      validateDecision env decision_uuid db
    else
      updateDecision env a decision_uuid text_hash db
  | none => insertDecision env a decision_uuid text_hash db

/-! ## Python truthiness helpers -/

/-- Python truthiness of an optional list argument (`None` and `[]` are
falsy). -/
def truthyList (o : Option (List α)) : Bool :=
  match o with
  | some (_ :: _) => true
  | _ => false

/-- Python truthiness of an optional string argument (`None` and `""` are
falsy). -/
def truthyStr (o : Option String) : Bool :=
  match o with
  | some s => !(s == "")
  | none => false

/-! ## Lineage edges (`vectordb/lineage.py`) -/

/-- A document of the `lineage_edges` collection. -/
structure LineageEdge where
  edge_uuid : String
  source_conversation : String
  target_conversation : String
  source_project : String
  target_project : String
  compression_tag : String
  decisions_carried : List String
  decisions_dropped : List String
  threads_carried : List String
  threads_resolved : List String
  created_at : String
  updated_at : String
deriving DecidableEq, Repr

/-- The arguments of `add_edge`, with their Python defaults.  The two
conversation ids arrive as strings and are parsed with `uuid.UUID(...)`;
the embedding takes the parsed values. -/
structure AddEdgeArgs where
  source_conversation : UUID
  target_conversation : UUID
  compression_tag : Option String := none
  decisions_carried : Option (List String) := none
  decisions_dropped : Option (List String) := none
  threads_carried : Option (List String) := none
  threads_resolved : Option (List String) := none
  source_project : Option String := none
  target_project : Option String := none

/-- The `edge_uuid` local of `add_edge`: the order-independent lineage
UUID of the pair, as a string. -/
def edgeUuid (a : AddEdgeArgs) : String :=
  (lineage_id a.source_conversation a.target_conversation).str

/-- The document `add_edge` inserts when the edge does not yet exist
(the `existing is None` arm). -/
def addEdgeDoc (now : String) (a : AddEdgeArgs) : LineageEdge :=
  { edge_uuid := edgeUuid a,
    source_conversation := a.source_conversation.str,
    target_conversation := a.target_conversation.str,
    source_project := a.source_project.getD "",
    target_project := a.target_project.getD "",
    compression_tag := a.compression_tag.getD "",
    decisions_carried := a.decisions_carried.getD [],
    decisions_dropped := a.decisions_dropped.getD [],
    threads_carried := a.threads_carried.getD [],
    threads_resolved := a.threads_resolved.getD [],
    created_at := now, updated_at := now }

/-- The update `add_edge` applies to an existing edge: `$addToSet` each
truthy list field, `$set` each truthy scalar field and `updated_at`. -/
def addEdgeUpd (now : String) (a : AddEdgeArgs) (e : LineageEdge) : LineageEdge :=
  let e := if truthyList a.decisions_carried then
      { e with decisions_carried :=
          addToSetList e.decisions_carried (a.decisions_carried.getD []) }
    else e
  let e := if truthyList a.decisions_dropped then
      { e with decisions_dropped :=
          addToSetList e.decisions_dropped (a.decisions_dropped.getD []) }
    else e
  let e := if truthyList a.threads_carried then
      { e with threads_carried :=
          addToSetList e.threads_carried (a.threads_carried.getD []) }
    else e
  let e := if truthyList a.threads_resolved then
      { e with threads_resolved :=
          addToSetList e.threads_resolved (a.threads_resolved.getD []) }
    else e
  let e := if truthyStr a.compression_tag then
      { e with compression_tag := a.compression_tag.getD "" }
    else e
  let e := if truthyStr a.source_project then
      { e with source_project := a.source_project.getD "" }
    else e
  let e := if truthyStr a.target_project then
      { e with target_project := a.target_project.getD "" }
    else e
  { e with updated_at := now }

/-- `add_edge`: derive the order-independent edge UUID; insert the full
document on first sight, else `$addToSet` the four list fields (when
truthy) and overwrite the scalar fields (when truthy).  Returns the new
collection plus `(action, edge_uuid)`. -/
def add_edge (now : String) (a : AddEdgeArgs) (edges : List LineageEdge) :
    List LineageEdge × String × String :=
  match edges.find? (fun e => e.edge_uuid == edgeUuid a) with
  | none => (edges ++ [addEdgeDoc now a], "inserted", edgeUuid a)
  | some _ =>
    (updateFirst (fun e => e.edge_uuid == edgeUuid a) (addEdgeUpd now a) edges,
     "updated", edgeUuid a)

/-! ## Compression registry (`vectordb/compression_registry.py`) -/

/-- A document of the `compression_registry` collection (the free-form
`metadata` dict is modelled as an association list). -/
structure CompressionRecord where
  compression_tag : String
  project : String
  source_conversation : String
  target_conversations : List String
  decisions_captured : List String
  threads_captured : List String
  artifacts_captured : List String
  checksum : String
  metadata : List (String × String)
  created_at : String
  updated_at : String
deriving DecidableEq, Repr

/-- The arguments of `register_compression`, with their Python defaults. -/
structure RegisterCompressionArgs where
  compression_tag : String
  project : String
  source_conversation : String
  decisions_captured : Option (List String) := none
  threads_captured : Option (List String) := none
  artifacts_captured : Option (List String) := none
  archive_checksum : Option String := none
  target_conversations : Option (List String) := none
  metadata : Option (List (String × String)) := none

/-- `register_compression`: insert the full document on first sight of
the tag; on re-registration touch `updated_at`, `$addToSet` the truthy
list fields, and overwrite the checksum only when the new value is truthy
and differs from the stored one.  Returns the new collection plus the
action. -/
def register_compression (now : String) (a : RegisterCompressionArgs)
    (recs : List CompressionRecord) : List CompressionRecord × String :=
  match recs.find? (fun r => r.compression_tag == a.compression_tag) with
  | none =>
    (recs ++ [{ compression_tag := a.compression_tag, project := a.project,
                source_conversation := a.source_conversation,
                target_conversations := a.target_conversations.getD [],
                decisions_captured := a.decisions_captured.getD [],
                threads_captured := a.threads_captured.getD [],
                artifacts_captured := a.artifacts_captured.getD [],
                checksum := a.archive_checksum.getD "",
                metadata := a.metadata.getD [],
                created_at := now, updated_at := now }],
     "inserted")
  | some existing =>
    let upd := fun (r : CompressionRecord) =>
      let r := { r with updated_at := now }
      let r := if truthyList a.target_conversations then
          { r with target_conversations :=
              addToSetList r.target_conversations (a.target_conversations.getD []) }
        else r
      let r := if truthyList a.decisions_captured then
          { r with decisions_captured :=
              addToSetList r.decisions_captured (a.decisions_captured.getD []) }
        else r
      let r := if truthyList a.threads_captured then
          { r with threads_captured :=
              addToSetList r.threads_captured (a.threads_captured.getD []) }
        else r
      let r := if truthyList a.artifacts_captured then
          { r with artifacts_captured :=
              addToSetList r.artifacts_captured (a.artifacts_captured.getD []) }
        else r
      if truthyStr a.archive_checksum && !(existing.checksum == a.archive_checksum.getD "")
      then { r with checksum := a.archive_checksum.getD "" }
      else r
    (updateFirst (fun r => r.compression_tag == a.compression_tag) upd recs,
     "updated")

/-- The dict returned by `verify_checksum` (`is_match` renders the `match`
key, a Lean keyword). -/
structure ChecksumReport where
  is_match : Bool
  stored : String
  computed : String
deriving DecidableEq, Repr

/-- `verify_checksum(tag, archive_text)`: `None` when the tag is unknown,
else a report comparing the SHA-256 of the text with the stored checksum;
a mismatch is data, not an exception. -/
def verify_checksum (compression_tag archive_text : String)
    (recs : List CompressionRecord) : Option ChecksumReport :=
  match recs.find? (fun r => r.compression_tag == compression_tag) with
  | none => none
  | some record =>
    let computed := sha256Hex archive_text
    some { is_match := computed == record.checksum,
           stored := record.checksum, computed := computed }

/-! ## Conversation registry (`vectordb/conversation_registry.py`) -/

/-- A document of the `conversation_registry` collection. -/
structure ConversationRecord where
  uuid : String
  source_id : String
  project_name : String
  project_uuid : String
  conversation_name : String
  summary : String
  created_at : String
  created_at_ms : Nat
  updated_at : String
deriving DecidableEq, Repr

/-- The wall clock of one registry call: the current instant in both the
epoch-ms and ISO renderings, and the `datetime` library's ISO rendering of
an arbitrary epoch-ms value (used by `_parse_timestamp` for numeric
inputs). -/
structure Clock where
  nowMs : Nat
  nowIso : String
  msToIso : Nat → String

/-- The arguments of `register_conversation`.  `created_at` accepts an ISO
string, a `datetime` or epoch milliseconds in Python; all three denote an
instant, modelled by the epoch-ms value `_parse_timestamp` extracts. -/
structure RegisterConversationArgs where
  source_id : String
  project_name : String
  conversation_name : Option String := none
  created_at : Option Nat := none
  summary : Option String := none

/-- `_parse_timestamp`: current time when absent, else the given instant
with its ISO rendering. -/
def parse_timestamp (ck : Clock) (created_at : Option Nat) : Nat × String :=
  match created_at with
  | none => (ck.nowMs, ck.nowIso)
  | some ms => (ms, ck.msToIso ms)

/-- The dict returned by `register_conversation`. -/
structure RegisterConversationResult where
  action : String
  uuid : String
  project_uuid : String
deriving DecidableEq, Repr

/-- `register_conversation`: derive `project_uuid = v5("project:"+name)`
and the conversation v8 from this call's arguments; update
name/summary/`updated_at` when the `source_id` is already registered, else
insert the full record.  The returned `uuid` is always the freshly derived
one. -/
def register_conversation (ck : Clock) (a : RegisterConversationArgs)
    (recs : List ConversationRecord) :
    List ConversationRecord × RegisterConversationResult :=
  let parsed := parse_timestamp ck a.created_at
  let project_uuid := v5 ("project:" ++ a.project_name)
  let conv_uuid := (v8_from_string a.source_id project_uuid parsed.1).str
  match recs.find? (fun r => r.source_id == a.source_id) with
  | some _ =>
    let upd := fun (r : ConversationRecord) =>
      let r := { r with updated_at := ck.nowIso }
      let r := if truthyStr a.conversation_name then
          { r with conversation_name := a.conversation_name.getD "" }
        else r
      if truthyStr a.summary then
        { r with summary := (a.summary.getD "").take 2000 }
      else r
    (updateFirst (fun r => r.source_id == a.source_id) upd recs,
     { action := "updated", uuid := conv_uuid, project_uuid := project_uuid.str })
  | none =>
    (recs ++ [{ uuid := conv_uuid, source_id := a.source_id,
                project_name := a.project_name,
                project_uuid := project_uuid.str,
                conversation_name :=
                  if truthyStr a.conversation_name then a.conversation_name.getD ""
                  else a.source_id,
                summary := (a.summary.getD "").take 2000,
                created_at := parsed.2, created_at_ms := parsed.1,
                updated_at := ck.nowIso }],
     { action := "inserted", uuid := conv_uuid, project_uuid := project_uuid.str })

/-! ## Attention engine (`vectordb/attention.py`)

Scores are Python floats; the embedding computes them exactly in `ℚ`,
with `round(x, n)` modelled as round-half-even on the exact rational.
`_compute_freshness` (ISO-8601 parsing plus `math.exp`) is host-library
numerics and enters as an environment function of the `updated_at`
string; the budget-trim and budget-respect claims hold for every value it
returns. -/

/-- Round-half-even to an integer (Python's `round`). -/
def roundHalfEven (x : ℚ) : Int :=
  let f := Int.floor x
  let frac := x - f
  if frac < 1 / 2 then f
  else if 1 / 2 < frac then f + 1
  else if f % 2 = 0 then f else f + 1

/-- Python `round(x, 4)`. -/
def round4 (x : ℚ) : ℚ := (roundHalfEven (x * 10000) : ℚ) / 10000

/-- `ATTENTION_WEIGHTS` (config.py). -/
structure AttentionWeights where
  similarity : ℚ
  epistemic_tier : ℚ
  freshness : ℚ
  conflict_salience : ℚ
  category_boost : ℚ

/-- The configured attention weights. -/
def ATTENTION_WEIGHTS : AttentionWeights :=
  ⟨45 / 100, 20 / 100, 15 / 100, 10 / 100, 10 / 100⟩

/-- `CATEGORY_BOOSTS` (config.py). -/
def CATEGORY_BOOSTS : List (String × ℚ) :=
  [("decision", 1), ("thread", 8 / 10), ("priming", 6 / 10),
   ("pattern", 4 / 10), ("conversation", 2 / 10), ("message", 0)]

/-- `ATTENTION_DEFAULT_BUDGET` (config.py). -/
def ATTENTION_DEFAULT_BUDGET : Int := 4000

/-- `ATTENTION_MIN_SCORE` (config.py). -/
def ATTENTION_MIN_SCORE : ℚ := 1 / 10

/-- `compute_attention`: the five-signal weighted sum, clamped to `[0, 1]`
and rounded to four places.  `freshness` is `_compute_freshness(updated_at)`,
supplied by the caller (see the section comment). -/
def compute_attention (freshness : ℚ) (similarity : ℚ)
    (epistemic_tier : Option ℚ) (has_conflicts : Bool) (category : String) : ℚ :=
  let w := ATTENTION_WEIGHTS
  let tier_score := epistemic_tier.getD (1 / 2)
  let tier_score := max 0 (min 1 tier_score)
  let conflict_bonus : ℚ := if has_conflicts then 1 else 0
  let cat_boost := (CATEGORY_BOOSTS.lookup category).getD 0
  let score := similarity * w.similarity + tier_score * w.epistemic_tier +
    freshness * w.freshness + conflict_bonus * w.conflict_salience +
    cat_boost * w.category_boost
  round4 (max 0 (min 1 score))

/-- One normalized result dict as built by `_search_collection`, extended
by the `attention` key (step 3 of `recall`) and the four optional
entanglement keys (step 4).  Keys a collection's documents lack default to
`""`/`None` exactly as the `doc.get` calls do. -/
structure RecallResult where
  text : String
  source : String
  category : String
  similarity : ℚ
  project : String
  uuid : String
  local_id : String
  epistemic_tier : Option ℚ
  updated_at : String
  has_conflicts : Bool
  status : String
  priority : String := ""
  pattern_type : String := ""
  success_score : Option ℚ := none
  attention : ℚ := 0
  cluster_id : Option Nat := none
  cluster_projects : List String := []
  cluster_size : Nat := 0
  avg_similarity : ℚ := 0
deriving DecidableEq, Repr

/-- `label = result.get("local_id") or result.get("uuid", "")[:8] or category`. -/
def renderLabel (r : RecallResult) : String :=
  if !(r.local_id == "") then r.local_id
  else if !(r.uuid.take 8 == "") then r.uuid.take 8
  else r.category

/-- Python `f"{x:.2f}"` on the exact rational. -/
def fmt2 (x : ℚ) : String :=
  let sign := if x < 0 then "-" else ""
  let cents := (roundHalfEven (|x| * 100)).toNat
  let fracPart := cents % 100
  sign ++ toString (cents / 100) ++ "." ++
    (if fracPart < 10 then "0" else "") ++ toString fracPart

/-- The line `_budget_trim` renders for one result:
`"[{category}|{attention:.2f}] {label}"`, plus `" ({project})"` when the
project is truthy, plus `": {text[:500]}"`. -/
def renderLine (r : RecallResult) : String :=
  let line := "[" ++ r.category ++ "|" ++ fmt2 r.attention ++ "] " ++ renderLabel r
  let line := if !(r.project == "") then line ++ " (" ++ r.project ++ ")" else line
  line ++ ": " ++ r.text.take 500

/-- The greedy inclusion loop of `_budget_trim` over the already-sorted
results; `used` counts each included line's length plus one for its
newline.  On the first line that would overshoot, the line is truncated
to the remaining budget and included when strictly more than 50 characters
remain, else dropped; either way the loop breaks. -/
def budgetTrimGo (budget : Int) : List RecallResult → Int →
    List RecallResult × List String
  | [], _ => ([], [])
  | r :: rest, used =>
    let line := renderLine r
    let line_len : Int := (line.length : Int) + 1
    if used + line_len > budget then
      let remaining := budget - used
      if remaining > 50 then ([r], [line.take remaining.toNat])
      else ([], [])
    else
      let next := budgetTrimGo budget rest (used + line_len)
      (r :: next.1, line :: next.2)

/-- `_budget_trim`: stable sort by `attention` descending, greedy fill,
newline-joined text. -/
def budget_trim (scored_results : List RecallResult) (budget : Int) :
    List RecallResult × String :=
  let sorted_results :=
    scored_results.mergeSort (fun a b => decide (b.attention ≤ a.attention))
  let go := budgetTrimGo budget sorted_results 0
  (go.1, String.intercalate "\n" go.2)

/-- One item of a cached entanglement cluster (only `uuid` is consumed
here). -/
structure ClusterItem where
  uuid : String
deriving DecidableEq, Repr

/-- One cached entanglement cluster as `enrich_with_entanglement` and the
gravity layer read it. -/
structure Cluster where
  cluster_id : Nat
  projects : List String
  items : List ClusterItem
  avg_similarity : ℚ
deriving DecidableEq, Repr

/-- The cached scan (`get_latest_scan`), reduced to the `clusters` field
both consumers read. -/
structure Scan where
  clusters : List Cluster
deriving DecidableEq, Repr

/-- `enrich_with_entanglement`: build `uuid -> cluster` (later clusters
overwrite earlier ones, as dict insertion does) and attach the cluster
summary to each matching result. -/
def enrich_with_entanglement (scan : Option Scan)
    (results : List RecallResult) : List RecallResult :=
  match scan with
  | none => results
  | some s =>
    if s.clusters.isEmpty then results
    else
      let assoc := s.clusters.flatMap
        (fun c => c.items.map (fun it => (it.uuid, c)))
      results.map (fun r =>
        match assoc.reverse.lookup r.uuid with
        | some c =>
          { r with cluster_id := some c.cluster_id,
                   cluster_projects := c.projects,
                   cluster_size := c.items.length,
                   avg_similarity := c.avg_similarity }
        | none => r)

/-- The remote context of one `recall` call: the normalized results each
collection's vector search returned (a function of the query embedding,
which the store computes), the freshness function, and the cached scan. -/
structure RecallEnv where
  per_collection_results : List (String × List RecallResult)
  freshnessOf : String → ℚ
  scan : Option Scan

/-- The dict returned by `recall`. -/
structure RecallOutput where
  results : List RecallResult
  context_text : String
  total_candidates : Nat
  budget_used : Nat
  collections_searched : List String
deriving DecidableEq, Repr

/-- `recall(query, project, budget, min_score, collections)`: flatten the
per-collection results (restricted to `collections` when given), score
each with `compute_attention`, drop below `min_score`, enrich with the
cached scan, budget-trim, and report `budget_used = len(context_text)`
(the identifier `recall` is a Mathlib command keyword, hence the prime). -/
def recall' (env : RecallEnv) (budget : Option Int) (min_score : Option ℚ)
    (collections : Option (List String)) : RecallOutput :=
  let budget := budget.getD ATTENTION_DEFAULT_BUDGET
  let min_score := min_score.getD ATTENTION_MIN_SCORE
  let per_collection : List (String × List RecallResult) :=
    match collections with
    | some cs => env.per_collection_results.filter (fun kv => kv.1 ∈ cs)
    | none => env.per_collection_results
  let all_results := per_collection.flatMap (fun kv => kv.2)
  let total_candidates := all_results.length
  let scored := all_results.map (fun (r : RecallResult) =>
    let att := compute_attention (env.freshnessOf r.updated_at)
      r.similarity r.epistemic_tier r.has_conflicts r.category
    { r with attention := att })
  let kept := scored.filter (fun r => min_score ≤ r.attention)
  let enriched := enrich_with_entanglement env.scan kept
  let trimmed := budget_trim enriched budget
  { results := trimmed.1, context_text := trimmed.2,
    total_candidates := total_candidates,
    budget_used := trimmed.2.length,
    collections_searched :=
      (per_collection.map (fun kv => kv.1)).mergeSort (fun a b => decide (a ≤ b)) }

/-! ## Gravity orchestrator (`vectordb/gravity.py`)

The claim checked here concerns `_parallel_lens_recall`.  Its worker calls

    recall(query=..., project=..., budget=None, min_score=...,
           query_embedding=query_embedding, db=db)

while `attention.recall` is declared as

    def recall(query, project=None, budget=None, min_score=None,
               collections=None, db=None)

Python raises `TypeError` for a keyword argument that matches no
parameter, before the callee body runs; the worker's exception is caught
by the `except` arm, which substitutes the empty fallback entry.  The
embedding carries both name lists verbatim and a `kwargsAccepted` check
expressing that call rule. -/

/-- The parameter names of `attention.recall`. -/
def recallParamNames : List String :=
  ["query", "project", "budget", "min_score", "collections", "db"]

/-- The keyword names `_run_lens` (inside `_parallel_lens_recall`) passes
to `recall`. -/
def lensRecallKwargs : List String :=
  ["query", "project", "budget", "min_score", "query_embedding", "db"]

/-- A Python call binds iff every keyword matches a parameter name
(no `**kwargs` catch-all is declared on `recall`). -/
def kwargsAccepted (kwargs params : List String) : Bool :=
  kwargs.all (fun k => params.contains k)

/-- A resolved lens (`_resolve_lenses` output entry). -/
structure Lens where
  project_name : String
  role : String
  weight : ℚ
  gravity_type : String
deriving DecidableEq, Repr

/-- One value of the `per_lens` dict. -/
structure LensEntry where
  project : String
  role : String
  gravity_type : String
  weight : ℚ
  results : List RecallResult
  result_count : Nat
  top_attention : ℚ
  total_candidates : Nat
deriving DecidableEq, Repr

/-- The fallback entry the `except` arm writes for a failed worker. -/
def lensFallback (lens : Lens) : LensEntry :=
  { project := lens.project_name, role := lens.role,
    gravity_type := lens.gravity_type, weight := lens.weight,
    results := [], result_count := 0, top_attention := 0,
    total_candidates := 0 }

/-- Python `max(iterable, default=0)`. -/
def maxOrZero (l : List ℚ) : ℚ :=
  match l with
  | [] => 0
  | x :: xs => xs.foldl max x

/-- `_run_lens` plus the result-handling arm of `_parallel_lens_recall`:
either the recall output shaped into a lens entry, or `TypeError` when the
call cannot bind.  `recallOut` is what `recall` would return for this
lens's project were the call to bind. -/
def runLens (recallOut : RecallOutput) (lens : Lens) :
    Except String LensEntry :=
  if kwargsAccepted lensRecallKwargs recallParamNames then
    Except.ok
      { project := lens.project_name, role := lens.role,
        gravity_type := lens.gravity_type, weight := lens.weight,
        results := recallOut.results,
        result_count := recallOut.results.length,
        top_attention :=
          round4 (maxOrZero (recallOut.results.map (fun r => r.attention))),
        total_candidates := recallOut.total_candidates }
  else
    Except.error "TypeError: recall() got an unexpected keyword argument"

/-- `_parallel_lens_recall`: one worker per lens; a worker's exception is
replaced by the fallback entry.  The `per_lens` dict is keyed by role
(modelled as the association list in lens order; duplicate roles overwrite
in Python and are not exercised by the claims). -/
def parallel_lens_recall (recallOutOf : Lens → RecallOutput)
    (lenses : List Lens) : List (String × LensEntry) :=
  lenses.map (fun lens =>
    (lens.role,
     match runLens (recallOutOf lens) lens with
     | Except.ok e => e
     | Except.error _ => lensFallback lens))

/-! ## Derived measures for the budget-trim analysis -/

/-- The character cost `_budget_trim` charges for one result: its rendered
line plus the newline. -/
def lineLen (r : RecallResult) : Int := ((renderLine r).length : Int) + 1

/-- Total character cost of a result list. -/
def usedOf (l : List RecallResult) : Int := (l.map lineLen).sum

/-- Total character cost of a rendered parts list (line plus newline
each). -/
def partsLen (ps : List String) : Int :=
  (ps.map (fun s => (s.length : Int) + 1)).sum

/-! ## Fixtures for the budget-trim and recall theorems -/

/-- A short result that fits comfortably in the trim budget. -/
def c4P : RecallResult :=
  { text := "alpha", source := "decision_registry", category := "decision",
    similarity := 1, project := "", uuid := "", local_id := "D-0001",
    epistemic_tier := none, updated_at := "", has_conflicts := false,
    status := "active", attention := 1 }

/-- The boundary result: its rendered line overshoots the remaining
budget with more than 50 characters left. -/
def c4B : RecallResult :=
  { c4P with local_id := "D-0002", attention := 0,
             text := "0123456789012345678901234567890123456789012345678901234567890" }

/-- A tail result behind the boundary item. -/
def c4T : RecallResult := { c4P with local_id := "D-0003", attention := 0 }

/-- A one-collection recall environment. -/
def c5Env : RecallEnv :=
  { per_collection_results := [("decision_registry", [c4P])],
    freshnessOf := fun _ => 1, scan := none }

/-! ## Derived measures and fixtures for the upsert trichotomy -/

/-- The identity-relevant projection of a decision record: its content
address and stored text hash (`register_conflict` touches neither). -/
def uuidHash (d : Decision) : String × String := (d.uuid, d.text_hash)

/-- A v8 conversation UUID (version nibble 8), so the decision id derived
from it does not depend on the caller's wall clock. -/
def c1Conv : UUID :=
  ⟨[1, 2, 3, 4, 5, 6, 0x87, 0x65, 0x89, 0xab, 1, 2, 3, 4, 5, 6]⟩

/-- A project UUID fixture. -/
def c1Proj : UUID :=
  ⟨[9, 9, 9, 9, 0, 0, 0x57, 0, 0x80, 0, 0, 0, 0, 0, 0, 1]⟩

/-- First upsert call: the original decision text. -/
def c1A : UpsertArgs :=
  { local_id := "D001", text := "Use LSM trees", project := "P",
    project_uuid := c1Proj, originated_conversation_id := c1Conv }

/-- Repeat call with the same conversation and project but changed
text. -/
def c1B : UpsertArgs := { c1A with text := "Use B-trees" }

/-- Wall-clock and remote context of the first call. -/
def c1Env1 : UpsertEnv :=
  { now := "2024-01-01T00:00:00+00:00", nowMs := 1700000000000,
    embedOut := [[1]], blob := fun _ => none, detected := some [] }

/-- A later clock for the repeat calls. -/
def c1Env2 : UpsertEnv :=
  { c1Env1 with now := "2024-01-02T00:00:00+00:00",
                nowMs := 1700086400000 }

/-- The empty decision store. -/
def c1Db0 : DecisionDB :=
  { decisions := [], counters := [], displayIndex := [], events := [],
    embedCalls := 0 }

/-! ## Claim fixtures and derived definitions -/

/-- C3 witness inputs: a registration carrying the checksum of one text,
verified against a different text. -/
def c3Args : RegisterCompressionArgs :=
  { compression_tag := "tag-1", project := "P", source_conversation := "c1",
    archive_checksum := some (sha256Hex "original archive text") }

/-- The symmetry invariant of `conflicts_with`: every listed conflict
points at a registered decision that lists the pointer back. -/
def ConflictsSymm (ds : List Decision) : Prop :=
  ∀ d ∈ ds, ∀ u ∈ d.conflicts_with,
    ∃ e ∈ ds, e.uuid = u ∧ d.uuid ∈ e.conflicts_with

/-- A minimal decision record for concrete witnesses. -/
def mkDecision (u : String) : Decision :=
  { uuid := u, local_id := "D001", global_display_id := "P-D-0001", text := "t",
    text_hash := "h", embedding := [], project := "P", project_uuid := "pu",
    originated_conversation := "c", epistemic_tier := none, status := "active",
    dependents := [], dependencies := [], conflicts_with := [],
    superseded_by := none, rationale := "", hops_since_validated := 0,
    last_validated := "T0", created_at := "T0", updated_at := "T0" }

/-- C9 concrete-instance clock: a fixed wall clock with a simple ISO
rendering of epoch milliseconds. -/
def c9Clock : Clock :=
  { nowMs := 1700000000999, nowIso := "2023-11-14T22:13:20.999000+00:00",
    msToIso := fun ms => "epoch-ms " ++ toString ms }

/-- C9 concrete-instance first registration (project `P`). -/
def c9Args1 : RegisterConversationArgs :=
  { source_id := "src-1", project_name := "P",
    created_at := some 1700000000000 }

/-- C9 concrete-instance repeat registration of the same `source_id` under
project `Q`. -/
def c9Args2 : RegisterConversationArgs :=
  { source_id := "src-1", project_name := "Q",
    created_at := some 1700000000000 }

/-- The registry state after the first C9 registration. -/
def c9State1 : List ConversationRecord :=
  (register_conversation c9Clock c9Args1 []).1

/-- The outcome of the repeat C9 registration. -/
def c9Out2 : List ConversationRecord × RegisterConversationResult :=
  register_conversation c9Clock c9Args2 c9State1

/-- The record the repeat C9 registration finds (extracted from the
state, so the witness never has to decide a whole-record equality). -/
def c9Found : ConversationRecord :=
  (c9State1.find? (fun r => r.source_id == "src-1")).getD
    { uuid := "", source_id := "", project_name := "", project_uuid := "",
      conversation_name := "", summary := "", created_at := "",
      created_at_ms := 0, updated_at := "" }

/-- C10 witness environment: fixed clock, an embedding reply that must
not be consumed, no blob store, no detected conflicts. -/
def c10Env : UpsertEnv :=
  { now := "2026-01-02T00:00:00+00:00", nowMs := 1700000000999,
    embedOut := [[1, 0]], blob := fun _ => none, detected := some [] }

/-- C10 witness arguments: a decision re-announced verbatim. -/
def c10Args : UpsertArgs :=
  { local_id := "D001", text := "Use LSM trees", project := "P",
    project_uuid := v5 "project:P",
    originated_conversation_id :=
      v8_from_string "conv-src-1" (v5 "project:P") 1700000000000 }

/-- C10 witness store: one registered decision whose stored hash matches
the re-announced text. -/
def c10Db : DecisionDB :=
  { decisions := [{ mkDecision
      ((decision_id c10Env.nowMs c10Args.project_uuid c10Args.text
        c10Args.originated_conversation_id).str) with
      text := "Use LSM trees",
      text_hash := (sha256Hex "Use LSM trees").take 16 }],
    counters := [⟨"P", "P", "D", 1, "T0"⟩],
    displayIndex := [⟨"P-D-0001", "u", "decision_registry", "P", "T0", "T0"⟩],
    events := [], embedCalls := 7 }

/-- The record the C10 upsert finds (extracted from the store, so the
witness never has to decide a whole-record equality). -/
def c10Found : Decision :=
  (c10Db.decisions.find? (fun d => d.uuid ==
    (decision_id c10Env.nowMs c10Args.project_uuid c10Args.text
      c10Args.originated_conversation_id).str)).getD (mkDecision "")

/-- Look up the (first) edge document with the given uuid. -/
def findEdge (u : String) (es : List LineageEdge) : Option LineageEdge :=
  es.find? (fun e => e.edge_uuid == u)

/-- The four set-valued list fields of an edge, as finite sets (absent
edge: all empty). -/
def edgeListSets (o : Option LineageEdge) :
    Finset String × Finset String × Finset String × Finset String :=
  match o with
  | none => (∅, ∅, ∅, ∅)
  | some e => (e.decisions_carried.toFinset, e.decisions_dropped.toFinset,
               e.threads_carried.toFinset, e.threads_resolved.toFinset)

/-- The four list-field contributions of one `add_edge` call. -/
def argsListSets (a : AddEdgeArgs) :
    Finset String × Finset String × Finset String × Finset String :=
  ((a.decisions_carried.getD []).toFinset, (a.decisions_dropped.getD []).toFinset,
   (a.threads_carried.getD []).toFinset, (a.threads_resolved.getD []).toFinset)

/-- Pointwise union of the four field sets. -/
def unionSets (x y : Finset String × Finset String × Finset String × Finset String) :
    Finset String × Finset String × Finset String × Finset String :=
  (x.1 ∪ y.1, x.2.1 ∪ y.2.1, x.2.2.1 ∪ y.2.2.1, x.2.2.2 ∪ y.2.2.2)

/-- Sequential replay of a list of `add_edge` calls. -/
def runAddEdges (now : String) (es : List LineageEdge)
    (calls : List AddEdgeArgs) : List LineageEdge :=
  calls.foldl (fun st c => (add_edge now c st).1) es

/-- The combined list-field contributions of a call sequence. -/
def callsSets (calls : List AddEdgeArgs) :
    Finset String × Finset String × Finset String × Finset String :=
  (calls.map argsListSets).foldr unionSets (∅, ∅, ∅, ∅)

/-- C8 witness fixtures: two conversation UUIDs and two calls given in
opposite orientations. -/
def c8S : UUID := ⟨[0, 0, 0, 0, 0, 0, 0, 0, 0, 0, 0, 0, 0, 0, 0, 1]⟩

/-- Second C8 conversation UUID. -/
def c8T : UUID := ⟨[0, 0, 0, 0, 0, 0, 0, 0, 0, 0, 0, 0, 0, 0, 0, 2]⟩

/-- First C8 call: forward orientation carrying `d1`. -/
def c8Call1 : AddEdgeArgs :=
  { source_conversation := c8S, target_conversation := c8T,
    decisions_carried := some ["d1"], threads_carried := some ["t1"] }

/-- Second C8 call: reverse orientation carrying `d2`. -/
def c8Call2 : AddEdgeArgs :=
  { source_conversation := c8T, target_conversation := c8S,
    decisions_carried := some ["d2"], decisions_dropped := some ["d3"] }

/-! # Lemmas and claim theorems -/

/-! ## Store-level lemmas -/

theorem updateFirst_find? {α} (p : α → Bool) (f : α → α) (l : List α)
    (hpres : ∀ x, p x = true → p (f x) = true) :
    (updateFirst p f l).find? p = (l.find? p).map f := by
  induction l with
  | nil => rfl
  | cons x xs ih =>
    by_cases hx : p x = true
    · simp [updateFirst, hx, List.find?_cons, hpres x hx]
    · simp only [updateFirst, hx, if_false, Bool.false_eq_true]
      rw [List.find?_cons_of_neg _ (by simp [hx]),
        List.find?_cons_of_neg _ (by simp [hx]), ih]

theorem mem_updateFirst {α} (p : α → Bool) (f : α → α) (l : List α) :
    ∀ x ∈ updateFirst p f l, x ∈ l ∨ ∃ y ∈ l, p y = true ∧ x = f y := by
  induction l with
  | nil => simp [updateFirst]
  | cons a as ih =>
    intro x hx
    simp only [updateFirst] at hx
    by_cases ha : p a = true
    · rw [if_pos ha] at hx
      rcases List.mem_cons.mp hx with h | h
      · exact Or.inr ⟨a, List.mem_cons_self a as, ha, h⟩
      · exact Or.inl (List.mem_cons_of_mem a h)
    · rw [if_neg ha] at hx
      rcases List.mem_cons.mp hx with h | h
      · exact Or.inl (h ▸ List.mem_cons_self a as)
      · rcases ih x h with h' | ⟨y, hy, hpy, hxy⟩
        · exact Or.inl (List.mem_cons_of_mem a h')
        · exact Or.inr ⟨y, List.mem_cons_of_mem a hy, hpy, hxy⟩

theorem updateFirst_mem_or {α} (p : α → Bool) (f : α → α) (l : List α) :
    ∀ y ∈ l, y ∈ updateFirst p f l ∨ f y ∈ updateFirst p f l := by
  induction l with
  | nil => simp
  | cons a as ih =>
    intro y hy
    simp only [updateFirst]
    by_cases ha : p a = true
    · rw [if_pos ha]
      rcases List.mem_cons.mp hy with h | h
      · exact Or.inr (h ▸ List.mem_cons_self _ _)
      · exact Or.inl (List.mem_cons_of_mem _ h)
    · rw [if_neg ha]
      rcases List.mem_cons.mp hy with h | h
      · exact Or.inl (h ▸ List.mem_cons_self _ _)
      · rcases ih y h with h' | h'
        · exact Or.inl (List.mem_cons_of_mem _ h')
        · exact Or.inr (List.mem_cons_of_mem _ h')

theorem addToSetList_nil {α} [DecidableEq α] (l : List α) :
    addToSetList l [] = l := rfl

theorem addToSetList_cons {α} [DecidableEq α] (l : List α) (a : α) (as : List α) :
    addToSetList l (a :: as) =
      addToSetList (if a ∈ l then l else l ++ [a]) as := rfl

theorem mem_addToSetList_left {α} [DecidableEq α] (l vals : List α) :
    ∀ x ∈ l, x ∈ addToSetList l vals := by
  induction vals generalizing l with
  | nil => simp [addToSetList_nil]
  | cons a as ih =>
    intro x hx
    rw [addToSetList_cons]
    by_cases hmem : a ∈ l
    · rw [if_pos hmem]; exact ih l x hx
    · rw [if_neg hmem]; exact ih (l ++ [a]) x (List.mem_append_left _ hx)

theorem mem_addToSetList_right {α} [DecidableEq α] (l vals : List α) :
    ∀ v ∈ vals, v ∈ addToSetList l vals := by
  induction vals generalizing l with
  | nil => simp
  | cons a as ih =>
    intro v hv
    rw [addToSetList_cons]
    rcases List.mem_cons.mp hv with h | h
    · subst h
      refine mem_addToSetList_left _ as v ?_
      by_cases hmem : v ∈ l
      · rw [if_pos hmem]; exact hmem
      · rw [if_neg hmem]
        exact List.mem_append_right _ (List.mem_singleton.mpr rfl)
    · exact ih _ v h

theorem mem_addToSetList_inv {α} [DecidableEq α] (l vals : List α) :
    ∀ x ∈ addToSetList l vals, x ∈ l ∨ x ∈ vals := by
  induction vals generalizing l with
  | nil => intro x hx; exact Or.inl hx
  | cons a as ih =>
    intro x hx
    rw [addToSetList_cons] at hx
    rcases ih _ x hx with h | h
    · by_cases hmem : a ∈ l
      · rw [if_pos hmem] at h; exact Or.inl h
      · rw [if_neg hmem] at h
        rcases List.mem_append.mp h with h' | h'
        · exact Or.inl h'
        · exact Or.inr (by simp at h'; simp [h'])
    · exact Or.inr (List.mem_cons_of_mem _ h)

theorem addToSetList_toFinset {α} [DecidableEq α] (l vals : List α) :
    (addToSetList l vals).toFinset = l.toFinset ∪ vals.toFinset := by
  induction vals generalizing l with
  | nil => simp [addToSetList_nil]
  | cons a as ih =>
    rw [addToSetList_cons, ih]
    by_cases hmem : a ∈ l
    · rw [if_pos hmem]
      ext x
      simp only [Finset.mem_union, List.mem_toFinset, List.toFinset_cons,
        Finset.mem_insert]
      constructor
      · tauto
      · rintro (h | h | h)
        · exact Or.inl h
        · exact Or.inl (h ▸ hmem)
        · exact Or.inr h
    · rw [if_neg hmem]
      ext x
      simp only [Finset.mem_union, List.mem_toFinset, List.toFinset_cons,
        Finset.mem_insert, List.mem_append, List.mem_singleton]
      tauto

theorem addToSetList_nodup {α} [DecidableEq α] (l vals : List α)
    (h : l.Nodup) : (addToSetList l vals).Nodup := by
  induction vals generalizing l with
  | nil => exact h
  | cons a as ih =>
    rw [addToSetList_cons]
    by_cases hmem : a ∈ l
    · rw [if_pos hmem]; exact ih l h
    · rw [if_neg hmem]
      exact ih (l ++ [a]) (by simp [List.nodup_append, h, hmem])

/-! ## Digest length facts -/

theorem sha256Step_length (st : List Nat) (kw : Nat × Nat) :
    (sha256Step st kw).length = st.length := by
  unfold sha256Step
  split <;> simp_all

theorem foldl_sha256Step_length (l : List (Nat × Nat)) (h : List Nat) :
    (l.foldl sha256Step h).length = h.length := by
  induction l generalizing h with
  | nil => rfl
  | cons x xs ih => rw [List.foldl_cons, ih, sha256Step_length]

theorem sha256Block_length (h block : List Nat) :
    (sha256Block h block).length = h.length := by
  unfold sha256Block
  rw [List.length_map, List.length_zip, foldl_sha256Step_length, Nat.min_self]

theorem foldl_sha256Block_length (blocks : List (List Nat)) (h : List Nat) :
    (blocks.foldl sha256Block h).length = h.length := by
  induction blocks generalizing h with
  | nil => rfl
  | cons b bs ih => rw [List.foldl_cons, ih, sha256Block_length]

theorem beBytes_length (k v : Nat) : (beBytes k v).length = k := by
  induction k generalizing v with
  | zero => rfl
  | succ n ih => simp [beBytes, ih]

theorem flatMap_beBytes4_length (l : List Nat) :
    (l.flatMap (beBytes 4)).length = 4 * l.length := by
  induction l with
  | nil => rfl
  | cons x xs ih => simp [List.flatMap_cons, ih, beBytes_length]; ring

theorem sha256Bytes_length (msg : List Nat) : (sha256Bytes msg).length = 32 := by
  unfold sha256Bytes
  rw [flatMap_beBytes4_length, foldl_sha256Block_length]
  rfl

theorem bytesToHex_length (bs : List Nat) :
    (bytesToHex bs).length = 2 * bs.length := by
  unfold bytesToHex
  show (bs.flatMap byteHex).length = 2 * bs.length
  induction bs with
  | nil => rfl
  | cons x xs ih => simp [List.flatMap_cons, byteHex, ih]; ring

theorem sha256Hex_length (s : String) : (sha256Hex s).length = 64 := by
  unfold sha256Hex
  rw [bytesToHex_length, sha256Bytes_length]

theorem sha256Hex_ne_empty (s : String) : sha256Hex s ≠ "" := by
  intro h
  have := sha256Hex_length s
  rw [h] at this
  simp [String.length] at this

/-! ## Bit-level lemmas for `v8` / `extract_timestamp` -/

theorem shiftLeft8_or_byte (x b : Nat) (hb : b < 256) :
    (x <<< 8) ||| b = x * 256 + b := by
  have hb' : b < 2 ^ 8 := by omega
  have h256 : (2 : Nat) ^ 8 = 256 := by norm_num
  have h := (Nat.mul_add_lt_is_or hb' x).symm
  rw [h256] at h
  rw [Nat.shiftLeft_eq, h256, Nat.mul_comm x 256, h, Nat.mul_comm]

theorem shiftLeft8_or_mod (x y : Nat) :
    (x <<< 8) ||| (y % 256) = x * 256 + y % 256 :=
  shiftLeft8_or_byte x _ (Nat.mod_lt _ (by norm_num))

theorem version_nibble_eight (x : Nat) :
    (((x &&& 15) ||| 128) >>> 4) &&& 15 = 8 := by
  have hy : x &&& 15 ≤ 15 := Nat.and_le_right
  generalize x &&& 15 = y at hy
  interval_cases y <;> rfl

theorem beBytes_add (j k v : Nat) :
    beBytes (j + k) v = beBytes j (v / 256 ^ k) ++ beBytes k v := by
  induction k generalizing v with
  | zero => simp [beBytes]
  | succ n ih =>
    show beBytes (j + n + 1) v = _
    rw [beBytes, ih (v / 256)]
    simp [beBytes, Nat.div_div_eq_div_mul, Nat.pow_succ, Nat.mul_comm]

theorem drop_append_of_length {α} (l1 l2 : List α) (n : Nat)
    (h : l1.length = n) : (l1 ++ l2).drop n = l2 := by
  subst h
  exact List.drop_left l1 l2

/-- The 48-bit truncation law: the timestamp a deterministic `v8` carries
is the low 48 bits of the requested one, and `_extract_timestamp` reads
exactly those bits back (the version nibble it checks was forced to 8). -/
theorem extract_timestamp_v8 (nowMs : Nat) (ns : UUID) (t : Nat)
    (e : List Nat) :
    extract_timestamp nowMs (v8 ns t false e) = t % 2 ^ 48 := by
  have hsplit : beBytes 8 (t % 2 ^ 64) =
      beBytes 2 (t % 2 ^ 64 / 256 ^ 6) ++ beBytes 6 (t % 2 ^ 64) :=
    beBytes_add 2 6 (t % 2 ^ 64)
  have hdrop : (beBytes 8 (t % 2 ^ 64)).drop 2 = beBytes 6 (t % 2 ^ 64) := by
    rw [hsplit]
    exact drop_append_of_length _ _ 2 (beBytes_length _ _)
  have hsfx : ∃ s0 s1 s2 rest,
      (sha256Bytes (ns.bytes ++ beBytes 8 (t % 2 ^ 64))).take 10 =
        s0 :: s1 :: s2 :: rest := by
    have hlen : ((sha256Bytes (ns.bytes ++ beBytes 8 (t % 2 ^ 64))).take 10).length = 10 := by
      rw [List.length_take, sha256Bytes_length]
      decide
    rcases hl : (sha256Bytes (ns.bytes ++ beBytes 8 (t % 2 ^ 64))).take 10 with
      _ | ⟨s0, _ | ⟨s1, _ | ⟨s2, rest⟩⟩⟩
    · rw [hl] at hlen; simp at hlen
    · rw [hl] at hlen; simp at hlen
    · rw [hl] at hlen; simp at hlen
    · exact ⟨s0, s1, s2, rest, rfl⟩
  obtain ⟨s0, s1, s2, rest, hsfx⟩ := hsfx
  show extract_timestamp nowMs
    ⟨forceVariant (forceVersion 8
      ((beBytes 8 (t % 2 ^ 64)).drop 2 ++
        (sha256Bytes (ns.bytes ++ beBytes 8 (t % 2 ^ 64))).take 10))⟩ = t % 2 ^ 48
  rw [hdrop, hsfx]
  have hb6 : beBytes 6 (t % 2 ^ 64) =
      [t % 2 ^ 64 / 256 / 256 / 256 / 256 / 256 % 256,
       t % 2 ^ 64 / 256 / 256 / 256 / 256 % 256,
       t % 2 ^ 64 / 256 / 256 / 256 % 256,
       t % 2 ^ 64 / 256 / 256 % 256,
       t % 2 ^ 64 / 256 % 256,
       t % 2 ^ 64 % 256] := rfl
  rw [hb6]
  show (if ((((s0 &&& 15) ||| (8 <<< 4)) >>> 4) &&& 15) ≠ 8 then nowMs
    else _) = t % 2 ^ 48
  rw [if_neg (by rw [show (8 <<< 4 : Nat) = 128 from rfl, version_nibble_eight]; simp)]
  show (((((0 <<< 8 ||| t % 2 ^ 64 / 256 / 256 / 256 / 256 / 256 % 256) <<< 8 |||
    t % 2 ^ 64 / 256 / 256 / 256 / 256 % 256) <<< 8 |||
    t % 2 ^ 64 / 256 / 256 / 256 % 256) <<< 8 |||
    t % 2 ^ 64 / 256 / 256 % 256) <<< 8 |||
    t % 2 ^ 64 / 256 % 256) <<< 8 ||| t % 2 ^ 64 % 256 = t % 2 ^ 48
  simp only [shiftLeft8_or_mod]
  omega

/-! ## C6 — identity determinism and the timestamp round-trip -/

/-- C6: identity determinism holds — the `random=False` path of `v8` uses
no entropy, so `v8_from_string` is a pure function of
`(name, namespace, ts)` — but the timestamp round-trip holds only modulo
2^48: `extract_timestamp(v8(_, t))` is `t % 2^48`, which differs from `t`
for timestamps at or beyond 48 bits (the amended claim). -/
theorem C6_identity_determinism_and_truncated_roundtrip :
    (∀ (name : String) (ns : UUID) (ts : Nat) (e1 e2 : List Nat),
       v8 (uuid5 ns name) ts false e1 = v8 (uuid5 ns name) ts false e2 ∧
       v8_from_string name ns ts = v8 (uuid5 ns name) ts false e1) ∧
    (∀ (nowMs : Nat) (ns : UUID) (t : Nat) (e : List Nat),
       extract_timestamp nowMs (v8 ns t false e) = t % 2 ^ 48) :=
  ⟨fun _ _ _ _ _ => ⟨rfl, rfl⟩,
   fun nowMs ns t e => extract_timestamp_v8 nowMs ns t e⟩

/-- C6 counterexample: at `t = 2^48` the round-trip fails —
`extract_timestamp(v8(BASE_UUID, 2^48))` is `0`, not `2^48`. -/
theorem C6_counterexample :
    extract_timestamp 0 (v8 BASE_UUID (2 ^ 48) false []) = 0 ∧
    (2 ^ 48 : Nat) ≠ 0 := by
  refine ⟨?_, by norm_num⟩
  rw [extract_timestamp_v8]
  norm_num

/-! ## C2 — per-lens recall always hits the TypeError fallback -/

/-- C2: the claim fails on the code — `_run_lens` passes the keyword
`query_embedding`, which `attention.recall` does not declare, so every
worker raises `TypeError` and every `per_lens` entry is the empty
fallback, for every lens list and every possible recall output. -/
theorem C2_lens_recall_typeerror_fallback :
    ∀ (recallOutOf : Lens → RecallOutput) (lenses : List Lens),
      parallel_lens_recall recallOutOf lenses =
        lenses.map (fun l => (l.role, lensFallback l)) := by
  intro ro lenses
  have h : kwargsAccepted lensRecallKwargs recallParamNames = false := by decide
  unfold parallel_lens_recall runLens
  simp [h]

/-! ## C3 — checksum round-trip -/

/-- C3: once `register_compression` has stored the SHA-256 of `original`
for a tag, `verify_checksum(tag, text)` returns a report (a mismatch is
data in the returned dict, not an exception) whose `match` is true iff the
text is byte-identical to the original.  The reverse implication rests on
the supplied collision-freeness of SHA-256 on the two texts involved —
provably false in general by pigeonhole, hence a hypothesis, as standard
for hash-identity arguments. -/
theorem C3_checksum_roundtrip (now : String) (recs : List CompressionRecord)
    (a : RegisterCompressionArgs) (original text : String)
    (hch : a.archive_checksum = some (sha256Hex original))
    (hcoll : sha256Hex text = sha256Hex original → text = original) :
    ∃ rep : ChecksumReport,
      verify_checksum a.compression_tag text
        (register_compression now a recs).1 = some rep ∧
      (rep.is_match = true ↔ text = original) := by
  have hne : (sha256Hex original == "") = false := by
    simp [sha256Hex_ne_empty original]
  have hiff : ((sha256Hex text == sha256Hex original) = true ↔ text = original) := by
    constructor
    · intro hbeq
      exact hcoll (by simpa using hbeq)
    · intro he
      subst he
      simp
  unfold register_compression verify_checksum
  cases hfind : recs.find? (fun r => r.compression_tag == a.compression_tag) with
  | none =>
    dsimp only
    rw [List.find?_append, hfind, Option.none_or]
    rw [List.find?_cons_of_pos _ (by simp)]
    refine ⟨_, rfl, ?_⟩
    simp only [hch, Option.getD_some]
    exact hiff
  | some existing =>
    dsimp only
    rw [updateFirst_find? _ _ _ (fun x hx => by
      simpa [apply_ite CompressionRecord.compression_tag] using hx), hfind]
    refine ⟨_, rfl, ?_⟩
    simp only [hch, Option.getD_some, truthyStr, hne, Bool.not_false, Bool.true_and]
    by_cases hsame : existing.checksum = sha256Hex original
    · rw [if_neg (by simp [hsame])]
      simpa [apply_ite CompressionRecord.checksum, hsame] using hiff
    · rw [if_pos (by simp [hsame])]
      simpa using hiff

/-- C3 witness: concrete round-trip — the stored digest of
`"original archive text"` does not match `"modified text"`. -/
theorem C3_checksum_roundtrip_witness :
    (c3Args.archive_checksum = some (sha256Hex "original archive text")) ∧
    (sha256Hex "modified text" = sha256Hex "original archive text" →
      "modified text" = "original archive text") ∧
    (∃ rep : ChecksumReport,
      verify_checksum c3Args.compression_tag "modified text"
        (register_compression "2026-01-01T00:00:00+00:00" c3Args []).1 = some rep ∧
      (rep.is_match = true ↔ "modified text" = "original archive text")) :=
  ⟨rfl, by decide,
   C3_checksum_roundtrip "2026-01-01T00:00:00+00:00" [] c3Args
     "original archive text" "modified text" rfl (by decide)⟩

/-! ## C7 — conflict symmetry -/

/-- C7: after `register_conflict(a, b, s)` on a store containing records
for both `a` and `b`, some record with uuid `a` lists `b` and some record
with uuid `b` lists `a`; `$addToSet` adds no duplicates; and the
`conflicts_with` symmetry invariant is preserved. -/
theorem C7_conflict_symmetry (a b s : String) (ds : List Decision)
    (ha : ∃ d ∈ ds, d.uuid = a) (hb : ∃ d ∈ ds, d.uuid = b) :
    (∃ d ∈ register_conflict a b s ds, d.uuid = a ∧ b ∈ d.conflicts_with) ∧
    (∃ d ∈ register_conflict a b s ds, d.uuid = b ∧ a ∈ d.conflicts_with) ∧
    ((∀ d ∈ ds, d.conflicts_with.Nodup) →
      ∀ d ∈ register_conflict a b s ds, d.conflicts_with.Nodup) ∧
    (ConflictsSymm ds → ConflictsSymm (register_conflict a b s ds)) := by
  unfold register_conflict
  set pa : Decision → Bool := fun d => d.uuid == a with hpa
  set pb : Decision → Bool := fun d => d.uuid == b with hpb
  set fa : Decision → Decision := fun d =>
    { d with conflicts_with := addToSetList d.conflicts_with [b] } with hfa
  set fb : Decision → Decision := fun d =>
    { d with conflicts_with := addToSetList d.conflicts_with [a] } with hfb
  -- every record of `ds` survives (possibly grown) into the final list
  have hpush : ∀ e ∈ ds, ∃ e' ∈ updateFirst pb fb (updateFirst pa fa ds),
      e'.uuid = e.uuid ∧ ∀ w ∈ e.conflicts_with, w ∈ e'.conflicts_with := by
    intro e he
    rcases updateFirst_mem_or pa fa ds e he with h1 | h1
    · rcases updateFirst_mem_or pb fb _ e h1 with h2 | h2
      · exact ⟨e, h2, rfl, fun w hw => hw⟩
      · exact ⟨fb e, h2, rfl, fun w hw => mem_addToSetList_left _ _ w hw⟩
    · rcases updateFirst_mem_or pb fb _ (fa e) h1 with h2 | h2
      · exact ⟨fa e, h2, rfl, fun w hw => mem_addToSetList_left _ _ w hw⟩
      · exact ⟨fb (fa e), h2, rfl,
          fun w hw => mem_addToSetList_left _ _ w (mem_addToSetList_left _ _ w hw)⟩
  -- part 1: a record with uuid `a` listing `b`
  have hfind_a : ∃ df, ds.find? pa = some df := by
    obtain ⟨d0, hd0, hu⟩ := ha
    have : (ds.find? pa).isSome := List.find?_isSome.mpr ⟨d0, hd0, by simp [hpa, hu]⟩
    exact Option.isSome_iff_exists.mp this
  obtain ⟨df, hdf⟩ := hfind_a
  have hdfa : df.uuid = a := by
    have := List.find?_some hdf
    simpa [hpa] using this
  have hstep1 : (updateFirst pa fa ds).find? pa = some (fa df) := by
    rw [updateFirst_find? pa fa ds (fun x hx => by simpa [hpa, hfa] using hx), hdf]
    rfl
  have hfa_mem : fa df ∈ updateFirst pa fa ds := List.mem_of_find?_eq_some hstep1
  have part1 : ∃ d ∈ updateFirst pb fb (updateFirst pa fa ds),
      d.uuid = a ∧ b ∈ d.conflicts_with := by
    rcases updateFirst_mem_or pb fb _ (fa df) hfa_mem with h2 | h2
    · exact ⟨fa df, h2, hdfa, mem_addToSetList_right _ _ b (by simp)⟩
    · exact ⟨fb (fa df), h2, hdfa,
        mem_addToSetList_left _ _ b (mem_addToSetList_right _ _ b (by simp))⟩
  -- part 2: a record with uuid `b` listing `a`
  have hfind_b : ∃ dg, (updateFirst pa fa ds).find? pb = some dg := by
    obtain ⟨d0, hd0, hu⟩ := hb
    rcases updateFirst_mem_or pa fa ds d0 hd0 with h1 | h1
    · have : ((updateFirst pa fa ds).find? pb).isSome :=
        List.find?_isSome.mpr ⟨d0, h1, by simp [hpb, hu]⟩
      exact Option.isSome_iff_exists.mp this
    · have : ((updateFirst pa fa ds).find? pb).isSome :=
        List.find?_isSome.mpr ⟨fa d0, h1, by simp [hpb, hfa, hu]⟩
      exact Option.isSome_iff_exists.mp this
  obtain ⟨dg, hdg⟩ := hfind_b
  have hdgb : dg.uuid = b := by
    have := List.find?_some hdg
    simpa [hpb] using this
  have hstep2 : (updateFirst pb fb (updateFirst pa fa ds)).find? pb = some (fb dg) := by
    rw [updateFirst_find? pb fb _ (fun x hx => by simpa [hpb, hfb] using hx), hdg]
    rfl
  have part2 : ∃ d ∈ updateFirst pb fb (updateFirst pa fa ds),
      d.uuid = b ∧ a ∈ d.conflicts_with :=
    ⟨fb dg, List.mem_of_find?_eq_some hstep2, hdgb,
      mem_addToSetList_right _ _ a (by simp)⟩
  refine ⟨part1, part2, ?_, ?_⟩
  -- part 3: no duplicates are introduced
  · intro hnod d hd
    rcases mem_updateFirst pb fb _ d hd with h1 | ⟨y, hy, _, rfl⟩
    · rcases mem_updateFirst pa fa ds d h1 with h2 | ⟨z, hz, _, rfl⟩
      · exact hnod d h2
      · exact addToSetList_nodup _ _ (hnod z hz)
    · rcases mem_updateFirst pa fa ds y hy with h2 | ⟨z, hz, _, rfl⟩
      · exact addToSetList_nodup _ _ (hnod y h2)
      · exact addToSetList_nodup _ _ (addToSetList_nodup _ _ (hnod z hz))
  -- part 4: symmetry is preserved
  · intro hsym d hd u hu
    have huse : ∀ x ∈ ds, x.uuid = d.uuid → u ∈ x.conflicts_with →
        ∃ e ∈ updateFirst pb fb (updateFirst pa fa ds),
          e.uuid = u ∧ d.uuid ∈ e.conflicts_with := by
      intro x hx hxu hxc
      obtain ⟨e, he, heu, hec⟩ := hsym x hx u hxc
      obtain ⟨e', he', heu', hsub⟩ := hpush e he
      exact ⟨e', he', heu'.trans heu, hsub _ (hxu ▸ hec)⟩
    rcases mem_updateFirst pb fb _ d hd with h1 | ⟨y, hy, hpy, rfl⟩
    · rcases mem_updateFirst pa fa ds d h1 with h2 | ⟨z, hz, hpz, rfl⟩
      · exact huse d h2 rfl hu
      · rcases mem_addToSetList_inv _ _ u hu with h3 | h3
        · exact huse z hz rfl h3
        · have hub : u = b := by simpa using h3
          subst hub
          obtain ⟨e, he, heu, hec⟩ := part2
          have hza : (fa z).uuid = a := by simpa [hpa] using hpz
          exact ⟨e, he, heu, by
            show (fa z).uuid ∈ e.conflicts_with
            rw [hza]; exact hec⟩
    · have hyb : y.uuid = b := by simpa [hpb] using hpy
      rcases mem_addToSetList_inv _ _ u hu with h3 | h3
      · -- u was already in y's conflicts before the second update
        rcases mem_updateFirst pa fa ds y hy with h2 | ⟨z, hz, hpz, rfl⟩
        · obtain ⟨e, he, heu, hec⟩ := huse y h2 rfl h3
          exact ⟨e, he, heu, hec⟩
        · rcases mem_addToSetList_inv _ _ u h3 with h4 | h4
          · exact huse z hz rfl h4
          · have hub : u = b := by simpa using h4
            subst hub
            obtain ⟨e, he, heu, hec⟩ := part2
            have hza : (fb (fa z)).uuid = a := by simpa [hpa] using hpz
            exact ⟨e, he, heu, by rw [hza]; exact hec⟩
      · have hua : u = a := by simpa using h3
        subst hua
        obtain ⟨e, he, heu, hec⟩ := part1
        exact ⟨e, he, heu, by rw [hyb]; exact hec⟩

/-- C7 witness: two concrete registered decisions. -/
theorem C7_conflict_symmetry_witness :
    (∃ d ∈ [mkDecision "ua", mkDecision "ub"], d.uuid = "ua") ∧
    (∃ d ∈ [mkDecision "ua", mkDecision "ub"], d.uuid = "ub") ∧
    ((∃ d ∈ register_conflict "ua" "ub" "embedding_similarity"
        [mkDecision "ua", mkDecision "ub"],
        d.uuid = "ua" ∧ "ub" ∈ d.conflicts_with) ∧
     (∃ d ∈ register_conflict "ua" "ub" "embedding_similarity"
        [mkDecision "ua", mkDecision "ub"],
        d.uuid = "ub" ∧ "ua" ∈ d.conflicts_with) ∧
     ((∀ d ∈ [mkDecision "ua", mkDecision "ub"], d.conflicts_with.Nodup) →
       ∀ d ∈ register_conflict "ua" "ub" "embedding_similarity"
          [mkDecision "ua", mkDecision "ub"], d.conflicts_with.Nodup) ∧
     (ConflictsSymm [mkDecision "ua", mkDecision "ub"] →
       ConflictsSymm (register_conflict "ua" "ub" "embedding_similarity"
          [mkDecision "ua", mkDecision "ub"]))) :=
  ⟨by decide, by decide,
   C7_conflict_symmetry "ua" "ub" "embedding_similarity"
     [mkDecision "ua", mkDecision "ub"] (by decide) (by decide)⟩

/-! ## C9 — repeat conversation registration: frame vs. returned uuid -/

/-- C9: re-registering an existing `source_id` leaves the stored `uuid`,
`project_name`, `project_uuid`, `created_at` and `created_at_ms`
unchanged (only name, summary and `updated_at` may change), while the
call's return value carries a uuid freshly derived from the current
call's `project_name` and `created_at` — which differs from the stored
uuid when those arguments differ, as the closing concrete conjunct
shows. -/
theorem C9_register_conversation_frame (ck : Clock)
    (a : RegisterConversationArgs) (recs : List ConversationRecord)
    (r0 : ConversationRecord)
    (hfind : recs.find? (fun r => r.source_id == a.source_id) = some r0) :
    ((∃ r1, (register_conversation ck a recs).1.find?
        (fun r => r.source_id == a.source_id) = some r1 ∧
      r1.uuid = r0.uuid ∧ r1.project_name = r0.project_name ∧
      r1.project_uuid = r0.project_uuid ∧ r1.created_at = r0.created_at ∧
      r1.created_at_ms = r0.created_at_ms) ∧
    (register_conversation ck a recs).2 =
      { action := "updated",
        uuid := (v8_from_string a.source_id
          (v5 ("project:" ++ a.project_name))
          (parse_timestamp ck a.created_at).1).str,
        project_uuid := (v5 ("project:" ++ a.project_name)).str }) ∧
    (c9Out2.1.map (fun r => r.uuid) ≠ [c9Out2.2.uuid] ∧
      c9Out2.2.action = "updated") := by
  constructor
  · unfold register_conversation
    dsimp only
    rw [hfind]
    constructor
    · dsimp only
      rw [updateFirst_find? _ _ _ (fun x hx => by
        simpa [apply_ite ConversationRecord.source_id] using hx), hfind]
      refine ⟨_, rfl, ?_, ?_, ?_, ?_, ?_⟩ <;>
        simp [apply_ite ConversationRecord.uuid,
          apply_ite ConversationRecord.project_name,
          apply_ite ConversationRecord.project_uuid,
          apply_ite ConversationRecord.created_at,
          apply_ite ConversationRecord.created_at_ms]
    · rfl
  · constructor
    · decide
    · decide

/-- C9 witness: the frame theorem applied to the concrete repeat
registration of `src-1` under a different project name. -/
theorem C9_register_conversation_frame_witness :
    c9State1.find? (fun r => r.source_id == "src-1") = some c9Found ∧
    (((∃ r1, (register_conversation c9Clock c9Args2 c9State1).1.find?
        (fun r => r.source_id == "src-1") = some r1 ∧
      r1.uuid = c9Found.uuid ∧ r1.project_name = c9Found.project_name ∧
      r1.project_uuid = c9Found.project_uuid ∧
      r1.created_at = c9Found.created_at ∧
      r1.created_at_ms = c9Found.created_at_ms) ∧
    (register_conversation c9Clock c9Args2 c9State1).2 =
      { action := "updated",
        uuid := (v8_from_string "src-1" (v5 "project:Q")
          (parse_timestamp c9Clock (some 1700000000000)).1).str,
        project_uuid := (v5 "project:Q").str }) ∧
    (c9Out2.1.map (fun r => r.uuid) ≠ [c9Out2.2.uuid] ∧
      c9Out2.2.action = "updated")) := by
  have hs : (c9State1.find? (fun r => r.source_id == "src-1")).isSome = true := by
    decide
  have hfind : c9State1.find? (fun r => r.source_id == "src-1") = some c9Found := by
    unfold c9Found
    rcases h : c9State1.find? (fun r => r.source_id == "src-1") with _ | v
    · rw [h] at hs; simp at hs
    · rfl
  exact ⟨hfind,
    C9_register_conversation_frame c9Clock c9Args2 c9State1 c9Found hfind⟩

/-! ## C10 — validation frame effect -/

/-- C10: when the derived uuid hits an existing record whose stored
`text_hash` matches, `upsert_decision` takes the `validated` branch: the
record changes only in `last_validated`, `hops_since_validated` and
`updated_at` (the post-state record is exactly the old one with those
three fields set); no embedding call happens and neither the display-id
counters nor the display index move. -/
theorem C10_validate_frame (env : UpsertEnv) (a : UpsertArgs)
    (db : DecisionDB) (d0 : Decision)
    (hfind : db.decisions.find? (fun d => d.uuid ==
      (decision_id env.nowMs a.project_uuid a.text
        a.originated_conversation_id).str) = some d0)
    (hhash : d0.text_hash = (sha256Hex a.text).take 16) :
    (upsert_decision env a db).2 =
      { action := "validated",
        uuid := (decision_id env.nowMs a.project_uuid a.text
          a.originated_conversation_id).str,
        global_display_id := none, conflicts := [] } ∧
    (upsert_decision env a db).1.decisions.find? (fun d => d.uuid ==
        (decision_id env.nowMs a.project_uuid a.text
          a.originated_conversation_id).str) =
      some { d0 with last_validated := env.now, hops_since_validated := 0,
                     updated_at := env.now } ∧
    (upsert_decision env a db).1.embedCalls = db.embedCalls ∧
    (upsert_decision env a db).1.counters = db.counters ∧
    (upsert_decision env a db).1.displayIndex = db.displayIndex := by
  have hbranch : upsert_decision env a db =
      validateDecision env (decision_id env.nowMs a.project_uuid a.text
        a.originated_conversation_id).str db := by
    unfold upsert_decision
    dsimp only
    rw [hfind]
    dsimp only
    rw [if_pos (by simp [hhash])]
  rw [hbranch]
  refine ⟨rfl, ?_, rfl, rfl, rfl⟩
  unfold validateDecision
  dsimp only
  rw [updateFirst_find? _ _ _ (fun x hx => by simpa using hx), hfind]
  rfl

/-- C10 witness: the frame theorem applied at the concrete store. -/
theorem C10_validate_frame_witness :
    (c10Db.decisions.find? (fun d => d.uuid ==
      (decision_id c10Env.nowMs c10Args.project_uuid c10Args.text
        c10Args.originated_conversation_id).str) = some c10Found) ∧
    (c10Found.text_hash = (sha256Hex c10Args.text).take 16) ∧
    ((upsert_decision c10Env c10Args c10Db).2 =
      { action := "validated",
        uuid := (decision_id c10Env.nowMs c10Args.project_uuid c10Args.text
          c10Args.originated_conversation_id).str,
        global_display_id := none, conflicts := [] } ∧
    (upsert_decision c10Env c10Args c10Db).1.decisions.find? (fun d => d.uuid ==
        (decision_id c10Env.nowMs c10Args.project_uuid c10Args.text
          c10Args.originated_conversation_id).str) =
      some { c10Found with last_validated := c10Env.now,
                           hops_since_validated := 0,
                           updated_at := c10Env.now } ∧
    (upsert_decision c10Env c10Args c10Db).1.embedCalls = c10Db.embedCalls ∧
    (upsert_decision c10Env c10Args c10Db).1.counters = c10Db.counters ∧
    (upsert_decision c10Env c10Args c10Db).1.displayIndex = c10Db.displayIndex) := by
  have hs : (c10Db.decisions.find? (fun d => d.uuid ==
      (decision_id c10Env.nowMs c10Args.project_uuid c10Args.text
        c10Args.originated_conversation_id).str)).isSome = true := by
    decide
  have hfind : c10Db.decisions.find? (fun d => d.uuid ==
      (decision_id c10Env.nowMs c10Args.project_uuid c10Args.text
        c10Args.originated_conversation_id).str) = some c10Found := by
    unfold c10Found
    rcases h : c10Db.decisions.find? (fun d => d.uuid ==
      (decision_id c10Env.nowMs c10Args.project_uuid c10Args.text
        c10Args.originated_conversation_id).str) with _ | v
    · rw [h] at hs; simp at hs
    · rfl
  have hhash : c10Found.text_hash = (sha256Hex c10Args.text).take 16 := by
    decide
  exact ⟨hfind, hhash, C10_validate_frame c10Env c10Args c10Db c10Found hfind hhash⟩

/-! ## C8 — lineage add-to-set commutativity -/

theorem unionSets_assoc (x y z :
    Finset String × Finset String × Finset String × Finset String) :
    unionSets (unionSets x y) z = unionSets x (unionSets y z) := by
  simp [unionSets, Finset.union_assoc]

theorem unionSets_empty_left (x :
    Finset String × Finset String × Finset String × Finset String) :
    unionSets (∅, ∅, ∅, ∅) x = x := by
  simp [unionSets]

theorem unionSets_empty_right (x :
    Finset String × Finset String × Finset String × Finset String) :
    unionSets x (∅, ∅, ∅, ∅) = x := by
  simp [unionSets]

theorem truthyList_false {α} (o : Option (List α))
    (h : truthyList o = false) : o.getD [] = [] := by
  match o with
  | none => rfl
  | some [] => rfl
  | some (_ :: _) => simp [truthyList] at h

/-- `composite_pair` is order-independent (spec §8.2; the sort key is the
canonical string form, and equal strings concatenate equally). -/
theorem composite_pair_comm (a b : UUID) :
    composite_pair a b = composite_pair b a := by
  unfold composite_pair
  by_cases h1 : b.str < a.str
  · have h2 : ¬ a.str < b.str := by
      intro h
      exact absurd h1 (not_lt.mpr (le_of_lt h))
    simp [h1, h2]
  · by_cases h2 : a.str < b.str
    · simp [h1, h2]
    · have heq : a.str = b.str := le_antisymm (not_lt.mp h1) (not_lt.mp h2)
      simp [h1, h2, heq]

/-- One `add_edge` call adds exactly its own list-field values,
set-wise, to its edge. -/
theorem add_edge_step_sets_own (now : String) (c : AddEdgeArgs)
    (es : List LineageEdge) :
    edgeListSets (findEdge (edgeUuid c) (add_edge now c es).1) =
      unionSets (edgeListSets (findEdge (edgeUuid c) es))
        (argsListSets c) := by
  unfold add_edge findEdge
  cases hfind : es.find? (fun e => e.edge_uuid == edgeUuid c) with
  | none =>
    dsimp only
    rw [List.find?_append, hfind, Option.none_or,
      List.find?_cons_of_pos _ (by simp [addEdgeDoc])]
    simp only [edgeListSets, unionSets, argsListSets, addEdgeDoc]
    simp
  | some e0 =>
    dsimp only
    rw [updateFirst_find? _ _ _ (fun x hx => by
      simpa [addEdgeUpd, apply_ite LineageEdge.edge_uuid] using hx), hfind]
    show edgeListSets (some _) = _
    simp only [edgeListSets, unionSets, argsListSets, addEdgeUpd, Prod.mk.injEq]
    refine ⟨?_, ?_, ?_, ?_⟩
    · by_cases h : truthyList c.decisions_carried
      · simp [apply_ite LineageEdge.decisions_carried, h, addToSetList_toFinset]
      · simp [apply_ite LineageEdge.decisions_carried, h, truthyList_false _ (by simpa using h)]
    · by_cases h : truthyList c.decisions_dropped
      · simp [apply_ite LineageEdge.decisions_dropped, h, addToSetList_toFinset]
      · simp [apply_ite LineageEdge.decisions_dropped, h, truthyList_false _ (by simpa using h)]
    · by_cases h : truthyList c.threads_carried
      · simp [apply_ite LineageEdge.threads_carried, h, addToSetList_toFinset]
      · simp [apply_ite LineageEdge.threads_carried, h, truthyList_false _ (by simpa using h)]
    · by_cases h : truthyList c.threads_resolved
      · simp [apply_ite LineageEdge.threads_resolved, h, addToSetList_toFinset]
      · simp [apply_ite LineageEdge.threads_resolved, h, truthyList_false _ (by simpa using h)]

/-- One `add_edge` call on either orientation of the `(S, T)` pair adds
exactly its own list-field values, set-wise, to the edge. -/
theorem add_edge_step_sets (now : String) (S T : UUID) (c : AddEdgeArgs)
    (es : List LineageEdge)
    (hc : (c.source_conversation = S ∧ c.target_conversation = T) ∨
      (c.source_conversation = T ∧ c.target_conversation = S)) :
    edgeListSets (findEdge (lineage_id S T).str (add_edge now c es).1) =
      unionSets (edgeListSets (findEdge (lineage_id S T).str es))
        (argsListSets c) := by
  have heq : edgeUuid c = (lineage_id S T).str := by
    unfold edgeUuid
    rcases hc with ⟨h1, h2⟩ | ⟨h1, h2⟩
    · rw [h1, h2]
    · rw [h1, h2]
      unfold lineage_id
      rw [composite_pair_comm]
  rw [← heq]
  exact add_edge_step_sets_own now c es

/-- Replaying a call sequence on one edge accumulates exactly the union
of the calls' list-field values over the initial edge state. -/
theorem add_edge_fold_sets (now : String) (S T : UUID)
    (calls : List AddEdgeArgs) (es : List LineageEdge)
    (hdir : ∀ c ∈ calls,
      (c.source_conversation = S ∧ c.target_conversation = T) ∨
      (c.source_conversation = T ∧ c.target_conversation = S)) :
    edgeListSets (findEdge (lineage_id S T).str (runAddEdges now es calls)) =
      unionSets (edgeListSets (findEdge (lineage_id S T).str es))
        (callsSets calls) := by
  induction calls generalizing es with
  | nil =>
    simp [runAddEdges, callsSets, unionSets_empty_right]
  | cons c cs ih =>
    have hc := hdir c (List.mem_cons_self c cs)
    have hdir' : ∀ x ∈ cs,
        (x.source_conversation = S ∧ x.target_conversation = T) ∨
        (x.source_conversation = T ∧ x.target_conversation = S) :=
      fun x hx => hdir x (List.mem_cons_of_mem c hx)
    show edgeListSets (findEdge (lineage_id S T).str
      (runAddEdges now (add_edge now c es).1 cs)) = _
    rw [ih (add_edge now c es).1 hdir', add_edge_step_sets now S T c es hc,
      unionSets_assoc]
    rfl

/-- The combined contributions are invariant under reordering. -/
theorem callsSets_perm (calls calls' : List AddEdgeArgs)
    (h : calls.Perm calls') : callsSets calls = callsSets calls' := by
  unfold callsSets
  induction h with
  | nil => rfl
  | cons x _ ih => simp only [List.map_cons, List.foldr_cons, ih]
  | swap x y l =>
    simp only [List.map_cons, List.foldr_cons]
    simp [unionSets, Finset.union_left_comm, Finset.union_assoc]
  | trans _ _ ih1 ih2 => rw [ih1, ih2]

/-- C8: from a state without the edge, `add_edge(S,T,[x])` then
`add_edge(S,T,[y])` leaves `decisions_carried` set-equal to `{x, y}` (and
the other list fields empty); and replaying any permutation of a call
sequence on the same unordered conversation pair converges to the same
set value for all four list fields. -/
theorem C8_lineage_add_to_set (now : String) (S T : UUID)
    (es : List LineageEdge) (x y : String)
    (hfresh : findEdge (lineage_id S T).str es = none)
    (calls calls' : List AddEdgeArgs) (hperm : calls.Perm calls')
    (hdir : ∀ c ∈ calls,
      (c.source_conversation = S ∧ c.target_conversation = T) ∨
      (c.source_conversation = T ∧ c.target_conversation = S)) :
    (edgeListSets (findEdge (lineage_id S T).str
        (runAddEdges now es
          [{ source_conversation := S, target_conversation := T,
             decisions_carried := some [x] },
           { source_conversation := S, target_conversation := T,
             decisions_carried := some [y] }])) =
      ({x, y}, ∅, ∅, ∅)) ∧
    edgeListSets (findEdge (lineage_id S T).str (runAddEdges now es calls)) =
      edgeListSets (findEdge (lineage_id S T).str (runAddEdges now es calls')) := by
  constructor
  · rw [add_edge_fold_sets now S T _ es (by
      intro c hc
      rcases List.mem_cons.mp hc with h | h
      · rw [h]; exact Or.inl ⟨rfl, rfl⟩
      · rcases List.mem_cons.mp h with h2 | h2
        · rw [h2]; exact Or.inl ⟨rfl, rfl⟩
        · simp at h2)]
    rw [hfresh]
    simp [callsSets, argsListSets, unionSets, edgeListSets]
    ext a
    simp
  · have hdir' : ∀ c ∈ calls',
        (c.source_conversation = S ∧ c.target_conversation = T) ∨
        (c.source_conversation = T ∧ c.target_conversation = S) :=
      fun c hc => hdir c (hperm.mem_iff.mpr hc)
    rw [add_edge_fold_sets now S T calls es hdir,
      add_edge_fold_sets now S T calls' es hdir',
      callsSets_perm calls calls' hperm]

/-- C8 witness: the theorem applied to a fresh edge and the two-call
sequence in both orders. -/
theorem C8_lineage_add_to_set_witness :
    (findEdge (lineage_id c8S c8T).str [] = none) ∧
    ([c8Call1, c8Call2].Perm [c8Call2, c8Call1]) ∧
    (∀ c ∈ [c8Call1, c8Call2],
      (c.source_conversation = c8S ∧ c.target_conversation = c8T) ∨
      (c.source_conversation = c8T ∧ c.target_conversation = c8S)) ∧
    ((edgeListSets (findEdge (lineage_id c8S c8T).str
        (runAddEdges "T0" []
          [{ source_conversation := c8S, target_conversation := c8T,
             decisions_carried := some ["dx"] },
           { source_conversation := c8S, target_conversation := c8T,
             decisions_carried := some ["dy"] }])) =
      ({"dx", "dy"}, ∅, ∅, ∅)) ∧
    edgeListSets (findEdge (lineage_id c8S c8T).str
        (runAddEdges "T0" [] [c8Call1, c8Call2])) =
      edgeListSets (findEdge (lineage_id c8S c8T).str
        (runAddEdges "T0" [] [c8Call2, c8Call1]))) :=
  ⟨rfl, List.Perm.swap c8Call2 c8Call1 [],
   by decide,
   C8_lineage_add_to_set "T0" c8S c8T [] "dx" "dy" rfl
     [c8Call1, c8Call2] [c8Call2, c8Call1]
     (List.Perm.swap c8Call2 c8Call1 [])
     (by decide)⟩

/-! ## C4 — budget-trim boundary rule -/

theorem take_length_le (s : String) (n : Nat) : (s.take n).length ≤ n := by
  rw [String.take_eq]
  show (s.data.take n).length ≤ n
  rw [List.length_take]
  exact Nat.min_le_left _ _

theorem lineLen_nonneg (r : RecallResult) : 0 ≤ lineLen r := by
  unfold lineLen
  have := Int.natCast_nonneg (renderLine r).length
  omega

theorem usedOf_cons (r : RecallResult) (t : List RecallResult) :
    usedOf (r :: t) = lineLen r + usedOf t := by
  simp [usedOf]

theorem usedOf_nonneg (l : List RecallResult) : 0 ≤ usedOf l := by
  induction l with
  | nil => simp [usedOf]
  | cons r t ih =>
    rw [usedOf_cons]
    have := lineLen_nonneg r
    omega

/-- The one-step unfolding of the greedy loop. -/
theorem budgetTrimGo_cons (budget used : Int) (r : RecallResult)
    (rest : List RecallResult) :
    budgetTrimGo budget (r :: rest) used =
      (if used + (((renderLine r).length : Int) + 1) > budget then
        (if budget - used > 50 then
          ([r], [(renderLine r).take (budget - used).toNat])
         else ([], []))
       else
        (r :: (budgetTrimGo budget rest
            (used + (((renderLine r).length : Int) + 1))).1,
         renderLine r :: (budgetTrimGo budget rest
            (used + (((renderLine r).length : Int) + 1))).2)) := rfl

/-- A prefix whose total cost fits in the budget is included verbatim and
the loop continues behind it. -/
theorem budgetTrimGo_append (budget : Int) (pre l : List RecallResult)
    (used : Int) (h : used + usedOf pre ≤ budget) :
    budgetTrimGo budget (pre ++ l) used =
      (pre ++ (budgetTrimGo budget l (used + usedOf pre)).1,
       pre.map renderLine ++ (budgetTrimGo budget l (used + usedOf pre)).2) := by
  induction pre generalizing used with
  | nil =>
    simp [usedOf]
  | cons r pre ih =>
    have h0 : 0 ≤ usedOf pre := usedOf_nonneg pre
    have hcons : usedOf (r :: pre) = lineLen r + usedOf pre := usedOf_cons r pre
    have hll : lineLen r = ((renderLine r).length : Int) + 1 := rfl
    have hfits : ¬ used + (((renderLine r).length : Int) + 1) > budget := by
      omega
    show budgetTrimGo budget (r :: (pre ++ l)) used = _
    rw [budgetTrimGo_cons, if_neg hfits,
      ih (used + (((renderLine r).length : Int) + 1)) (by omega)]
    have harg : used + (((renderLine r).length : Int) + 1) + usedOf pre =
        used + usedOf (r :: pre) := by
      omega
    rw [harg]
    simp

/-- C4 (corrected): `_budget_trim` sorts by attention descending and
includes greedily; at the first item whose rendered line would push the
total past the budget, the line is truncated to the remaining budget and
included when **strictly more than 50** characters remain (the claim's
"at least 50" admits the `remaining = 50` boundary, where the code
discards), and nothing after the boundary item is included either way. -/
theorem C4_budget_trim_boundary (budget : Int)
    (results pre rest : List RecallResult) (r : RecallResult)
    (hsort : results.mergeSort (fun a b => decide (b.attention ≤ a.attention)) =
      pre ++ r :: rest)
    (hfit : usedOf pre ≤ budget)
    (hover : usedOf pre + lineLen r > budget) :
    budget_trim results budget =
      (if budget - usedOf pre > 50 then
        (pre ++ [r],
         String.intercalate "\n" (pre.map renderLine ++
           [(renderLine r).take (budget - usedOf pre).toNat]))
       else
        (pre, String.intercalate "\n" (pre.map renderLine))) := by
  unfold budget_trim
  dsimp only
  rw [hsort, budgetTrimGo_append budget pre (r :: rest) 0 (by simpa using hfit),
    zero_add, budgetTrimGo_cons]
  have hover' : usedOf pre + (((renderLine r).length : Int) + 1) > budget :=
    hover
  rw [if_pos hover']
  by_cases h50 : budget - usedOf pre > 50
  · rw [if_pos h50, if_pos h50]
  · rw [if_neg h50, if_neg h50]
    simp

/-- C4 counterexample: with budget 50 and a single long result, the
boundary is reached with exactly 50 characters remaining — the claim's
"at least 50" rule would include a 50-character truncation, but the code
requires strictly more than 50 and returns the empty trim. -/
theorem C4_counterexample :
    usedOf ([] : List RecallResult) + lineLen c4B > 50 ∧
    (50 : Int) - usedOf ([] : List RecallResult) ≥ 50 ∧
    budget_trim [c4B] 50 = ([], "") := by
  have haB : c4B.attention = 0 := rfl
  have hrB : roundHalfEven (|c4B.attention| * 100) = 0 := by
    rw [haB]
    norm_num [roundHalfEven]
  have htakeB : c4B.text.take 500 = c4B.text := by
    rw [String.take_eq]
    decide
  have hlineB : renderLine c4B =
      "[decision|0.00] D-0002: 0123456789012345678901234567890123456789012345678901234567890" := by
    unfold renderLine renderLabel fmt2
    rw [hrB, htakeB]
    decide
  refine ⟨?_, by decide, ?_⟩
  · unfold lineLen
    rw [hlineB]
    decide
  · have hs : List.mergeSort [c4B]
        (fun a b => decide (b.attention ≤ a.attention)) = [c4B] :=
      List.mergeSort_of_sorted (by simp)
    unfold budget_trim
    dsimp only
    rw [hs, budgetTrimGo_cons, hlineB]
    decide

/-- C4 witness: three results sorted by attention; the first fits, the
second overshoots with 70 characters remaining and is truncated in, the
third is never reached. -/
theorem C4_budget_trim_boundary_witness :
    (List.mergeSort [c4P, c4B, c4T]
        (fun a b => decide (b.attention ≤ a.attention)) =
      [c4P] ++ c4B :: [c4T]) ∧
    usedOf [c4P] ≤ 100 ∧ usedOf [c4P] + lineLen c4B > 100 ∧
    budget_trim [c4P, c4B, c4T] 100 =
      (if (100 : Int) - usedOf [c4P] > 50 then
        ([c4P] ++ [c4B],
         String.intercalate "\n" ([c4P].map renderLine ++
           [(renderLine c4B).take ((100 : Int) - usedOf [c4P]).toNat]))
       else
        ([c4P], String.intercalate "\n" ([c4P].map renderLine))) := by
  have haP : c4P.attention = 1 := rfl
  have hrP : roundHalfEven (|c4P.attention| * 100) = 100 := by
    rw [haP]
    norm_num [roundHalfEven]
  have htakeP : c4P.text.take 500 = c4P.text := by
    rw [String.take_eq]
    decide
  have hlineP : renderLine c4P = "[decision|1.00] D-0001: alpha" := by
    unfold renderLine renderLabel fmt2
    rw [hrP, htakeP]
    decide
  have haB : c4B.attention = 0 := rfl
  have hrB : roundHalfEven (|c4B.attention| * 100) = 0 := by
    rw [haB]
    norm_num [roundHalfEven]
  have htakeB : c4B.text.take 500 = c4B.text := by
    rw [String.take_eq]
    decide
  have hlineB : renderLine c4B =
      "[decision|0.00] D-0002: 0123456789012345678901234567890123456789012345678901234567890" := by
    unfold renderLine renderLabel fmt2
    rw [hrB, htakeB]
    decide
  have hu : usedOf [c4P] = 30 := by
    unfold usedOf lineLen
    rw [List.map_cons, List.map_nil, List.sum_cons, List.sum_nil, hlineP]
    decide
  have hlB : lineLen c4B = 86 := by
    unfold lineLen
    rw [hlineB]
    decide
  have hs : List.mergeSort [c4P, c4B, c4T]
      (fun a b => decide (b.attention ≤ a.attention)) =
      [c4P] ++ c4B :: [c4T] := by
    rw [List.mergeSort_of_sorted (by decide)]
    rfl
  exact ⟨hs, by rw [hu]; decide, by rw [hu, hlB]; decide,
    C4_budget_trim_boundary 100 [c4P, c4B, c4T] [c4P] [c4T] c4B hs
      (by rw [hu]; decide) (by rw [hu, hlB]; decide)⟩

/-! ## C5 — budget respect -/

/-- The loop never charges more than one character past the budget: the
running total plus the cost of the emitted lines stays under `budget + 1`
(the final line carries a newline charge the joined text does not pay). -/
theorem budgetTrimGo_len (budget : Int) (l : List RecallResult) (used : Int)
    (h : used ≤ budget) :
    used + partsLen (budgetTrimGo budget l used).2 ≤ budget + 1 := by
  induction l generalizing used with
  | nil =>
    simp [budgetTrimGo, partsLen]
    omega
  | cons r rest ih =>
    rw [budgetTrimGo_cons]
    by_cases hover : used + (((renderLine r).length : Int) + 1) > budget
    · rw [if_pos hover]
      by_cases h50 : budget - used > 50
      · rw [if_pos h50]
        dsimp only
        have htake := take_length_le (renderLine r) (budget - used).toNat
        have hnn : ((budget - used).toNat : Int) = budget - used :=
          Int.toNat_of_nonneg (by omega)
        have hc : (((renderLine r).take (budget - used).toNat).length : Int) ≤
            ((budget - used).toNat : Int) := Int.ofNat_le.mpr htake
        simp only [partsLen, List.map_cons, List.map_nil, List.sum_cons,
          List.sum_nil]
        omega
      · rw [if_neg h50]
        dsimp only
        simp [partsLen]
        omega
    · rw [if_neg hover]
      dsimp only
      have hrec := ih (used + (((renderLine r).length : Int) + 1)) (by omega)
      simp only [partsLen, List.map_cons, List.sum_cons] at hrec ⊢
      omega

theorem intercalate_go_length (s acc : String) (as : List String) :
    (String.intercalate.go acc s as).length =
      acc.length + (as.map (fun a => s.length + a.length)).sum := by
  induction as generalizing acc with
  | nil =>
    show acc.length = _
    simp
  | cons a as ih =>
    show (String.intercalate.go (acc ++ s ++ a) s as).length = _
    rw [ih]
    simp [String.length_append, List.map_cons, List.sum_cons]
    omega

/-- The joined text is one character (the missing final newline) shorter
than the per-line newline-inclusive total. -/
theorem intercalate_length_succ (a : String) (as : List String) :
    (String.intercalate "\n" (a :: as)).length + 1 =
      ((a :: as).map (fun s => s.length + 1)).sum := by
  show (String.intercalate.go a "\n" as).length + 1 = _
  rw [intercalate_go_length]
  rw [List.map_cons, List.sum_cons]
  have hmap : as.map (fun x => ("\n" : String).length + x.length) =
      as.map (fun s => s.length + 1) :=
    List.map_congr_left (fun x _ => by
      have h1 : ("\n" : String).length = 1 := rfl
      omega)
  rw [hmap]
  omega

theorem partsLen_cast (ps : List String) :
    partsLen ps = (((ps.map (fun s => s.length + 1)).sum : ℕ) : ℤ) := by
  induction ps with
  | nil => rfl
  | cons a as ih =>
    have hc : partsLen (a :: as) = ((a.length : Int) + 1) + partsLen as := by
      simp [partsLen]
    have hrhs : ((a :: as).map (fun s => s.length + 1)).sum =
        (a.length + 1) + (as.map (fun s => s.length + 1)).sum := by
      simp
    rw [hc, ih]
    omega

/-- The joined trim text never exceeds a non-negative budget. -/
theorem budget_trim_len (rs : List RecallResult) (b : Int) (hb : 0 ≤ b) :
    (((budget_trim rs b).2.length : Int)) ≤ b := by
  unfold budget_trim
  dsimp only
  have h2 := budgetTrimGo_len b
    (rs.mergeSort (fun a b => decide (b.attention ≤ a.attention))) 0 hb
  cases hps : (budgetTrimGo b
      (rs.mergeSort (fun a b => decide (b.attention ≤ a.attention))) 0).2 with
  | nil =>
    show ((0 : Nat) : Int) ≤ b
    simpa using hb
  | cons a as =>
    rw [hps] at h2
    have h3 := intercalate_length_succ a as
    have h4 := partsLen_cast (a :: as)
    omega

/-- C5: `recall` reports `budget_used` as the exact length of the
returned `context_text`, and that length never exceeds a non-negative
requested budget. -/
theorem C5_budget_respect (env : RecallEnv) (b : Int) (m : Option ℚ)
    (collections : Option (List String)) (hb : 0 ≤ b) :
    (recall' env (some b) m collections).budget_used =
      (recall' env (some b) m collections).context_text.length ∧
    ((recall' env (some b) m collections).budget_used : Int) ≤ b := by
  constructor
  · rfl
  · exact budget_trim_len _ b hb

/-- C5 witness: the theorem applied to a one-collection environment and
budget 100. -/
theorem C5_budget_respect_witness :
    (0 : Int) ≤ 100 ∧
    ((recall' c5Env (some 100) none none).budget_used =
      (recall' c5Env (some 100) none none).context_text.length ∧
     ((recall' c5Env (some 100) none none).budget_used : Int) ≤ 100) :=
  ⟨by decide, C5_budget_respect c5Env 100 none none (by decide)⟩

/-! ## C1 — upsert trichotomy -/

/-- `updateFirst` with an update that preserves the predicate and the
`(uuid, text_hash)` projection leaves that projection of any `find?`
unchanged. -/
theorem find?_map_updateFirst (p q : Decision → Bool) (f : Decision → Decision)
    (hp : ∀ x, p (f x) = p x) (hh : ∀ x, uuidHash (f x) = uuidHash x)
    (l : List Decision) :
    ((updateFirst q f l).find? p).map uuidHash = (l.find? p).map uuidHash := by
  induction l with
  | nil => rfl
  | cons x xs ih =>
    unfold updateFirst
    by_cases hq : q x = true
    · rw [if_pos hq]
      by_cases hpx : p x = true
      · rw [List.find?_cons_of_pos _ (by rw [hp]; exact hpx),
          List.find?_cons_of_pos _ hpx]
        simp [hh]
      · rw [List.find?_cons_of_neg _ (by rw [hp]; simpa using hpx),
          List.find?_cons_of_neg _ (by simpa using hpx)]
    · rw [if_neg hq]
      by_cases hpx : p x = true
      · rw [List.find?_cons_of_pos _ hpx, List.find?_cons_of_pos _ hpx]
      · rw [List.find?_cons_of_neg _ (by simpa using hpx),
          List.find?_cons_of_neg _ (by simpa using hpx)]
        exact ih

/-- `register_conflict` touches only `conflicts_with`, so uuid-keyed
lookups see the same `(uuid, text_hash)` pair. -/
theorem find?_map_register_conflict (u1 u2 s u : String) (l : List Decision) :
    ((register_conflict u1 u2 s l).find? (fun d => d.uuid == u)).map uuidHash =
      (l.find? (fun d => d.uuid == u)).map uuidHash := by
  unfold register_conflict
  dsimp only
  rw [find?_map_updateFirst (fun d => d.uuid == u) (fun d => d.uuid == u2)
      (fun d => { d with conflicts_with := addToSetList d.conflicts_with [u1] })
      (fun x => rfl) (fun x => rfl),
    find?_map_updateFirst (fun d => d.uuid == u) (fun d => d.uuid == u1)
      (fun d => { d with conflicts_with := addToSetList d.conflicts_with [u2] })
      (fun x => rfl) (fun x => rfl)]

/-- The best-effort conflict registration loop preserves the
`(uuid, text_hash)` view of every uuid-keyed lookup. -/
theorem find?_map_conflict_fold (u0 u : String) (cs : List ConflictHit)
    (ds : List Decision) :
    ((cs.foldl (fun ds (c : ConflictHit) =>
        register_conflict u0 c.existing_uuid c.signal ds) ds).find?
      (fun d => d.uuid == u)).map uuidHash =
      (ds.find? (fun d => d.uuid == u)).map uuidHash := by
  induction cs generalizing ds with
  | nil => rfl
  | cons c cs ih =>
    rw [List.foldl_cons, ih, find?_map_register_conflict]

/-- Fresh uuid: `upsert_decision` takes the insert branch. -/
theorem upsert_fresh_eq (env : UpsertEnv) (a : UpsertArgs) (db : DecisionDB)
    (h : db.decisions.find? (fun d => d.uuid ==
      (decision_id env.nowMs a.project_uuid a.text
        a.originated_conversation_id).str) = none) :
    upsert_decision env a db =
      insertDecision env a
        (decision_id env.nowMs a.project_uuid a.text
          a.originated_conversation_id).str
        ((sha256Hex a.text).take 16) db := by
  unfold upsert_decision
  dsimp only
  rw [h]

/-- Matching stored hash: `upsert_decision` takes the validate branch. -/
theorem upsert_validated_eq (env : UpsertEnv) (a : UpsertArgs)
    (db : DecisionDB) (d0 : Decision)
    (h : db.decisions.find? (fun d => d.uuid ==
      (decision_id env.nowMs a.project_uuid a.text
        a.originated_conversation_id).str) = some d0)
    (hh : (d0.text_hash == (sha256Hex a.text).take 16) = true) :
    upsert_decision env a db =
      validateDecision env
        (decision_id env.nowMs a.project_uuid a.text
          a.originated_conversation_id).str db := by
  unfold upsert_decision
  dsimp only
  rw [h]
  dsimp only
  rw [if_pos hh]

/-- The insert branch reports `inserted`, carries the freshly allocated
display id, and makes exactly one embedding call. -/
theorem insertDecision_frame (env : UpsertEnv) (a : UpsertArgs)
    (u h : String) (db : DecisionDB) :
    (insertDecision env a u h db).2.action = "inserted" ∧
    (insertDecision env a u h db).2.global_display_id =
      some (allocate_display_id env.now db.counters a.project "decision").2 ∧
    (insertDecision env a u h db).1.embedCalls = db.embedCalls + 1 :=
  ⟨rfl, rfl, rfl⟩

/-- After an insert into a store without the uuid, looking the uuid up
finds a record that still carries the inserted `text_hash`. -/
theorem insertDecision_find_self (env : UpsertEnv) (a : UpsertArgs)
    (u h : String) (db : DecisionDB)
    (hfresh : db.decisions.find? (fun d => d.uuid == u) = none) :
    ∃ d0, (insertDecision env a u h db).1.decisions.find?
      (fun d => d.uuid == u) = some d0 ∧ d0.text_hash = h := by
  have hmap : ((insertDecision env a u h db).1.decisions.find?
      (fun d => d.uuid == u)).map uuidHash = some (u, h) := by
    unfold insertDecision
    dsimp only
    cases env.detected with
    | none =>
      dsimp only
      rw [List.find?_append, hfresh, Option.none_or,
        List.find?_cons_of_pos _ (by simp [insertDoc])]
      simp [insertDoc, uuidHash]
    | some cs =>
      dsimp only
      rw [find?_map_conflict_fold, List.find?_append, hfresh, Option.none_or,
        List.find?_cons_of_pos _ (by simp [insertDoc])]
      simp [insertDoc, uuidHash]
  cases hx : (insertDecision env a u h db).1.decisions.find?
      (fun d => d.uuid == u) with
  | none =>
    rw [hx] at hmap
    simp at hmap
  | some d0 =>
    rw [hx] at hmap
    refine ⟨d0, rfl, ?_⟩
    have hpair : uuidHash d0 = (u, h) := by simpa using hmap
    have hsnd := congrArg Prod.snd hpair
    simpa [uuidHash] using hsnd

/-- An insert of one uuid leaves lookups of every other absent uuid
empty. -/
theorem insertDecision_find_ne (env : UpsertEnv) (a : UpsertArgs)
    (u h w : String) (db : DecisionDB) (hw : w ≠ u)
    (hfresh : db.decisions.find? (fun d => d.uuid == w) = none) :
    (insertDecision env a u h db).1.decisions.find?
      (fun d => d.uuid == w) = none := by
  unfold insertDecision
  dsimp only
  cases env.detected with
  | none =>
    dsimp only
    rw [List.find?_append, hfresh, Option.none_or,
      List.find?_cons_of_neg _ (by simp [insertDoc, Ne.symm hw]),
      List.find?_nil]
  | some cs =>
    dsimp only
    have hbase : (db.decisions ++ [insertDoc env a u h
        (allocate_display_id env.now db.counters a.project "decision").2]).find?
        (fun d => d.uuid == w) = none := by
      rw [List.find?_append, hfresh, Option.none_or,
        List.find?_cons_of_neg _ (by simp [insertDoc, Ne.symm hw]),
        List.find?_nil]
    have hmap := find?_map_conflict_fold u w cs (db.decisions ++ [insertDoc env a u h
      (allocate_display_id env.now db.counters a.project "decision").2])
    rw [hbase] at hmap
    simp only [Option.map_none'] at hmap
    exact Option.map_eq_none'.mp hmap

/-- The validate branch reports `validated` and makes no embedding
call. -/
theorem validateDecision_frame (env : UpsertEnv) (u : String)
    (db : DecisionDB) :
    (validateDecision env u db).2.action = "validated" ∧
    (validateDecision env u db).1.embedCalls = db.embedCalls :=
  ⟨rfl, rfl⟩

/-- For a v8 UUID the embedded timestamp is read from the UUID itself,
independent of the caller's clock. -/
theorem extract_timestamp_is_v8 (n m : Nat) (u : UUID)
    (h : is_v8 u = true) :
    extract_timestamp n u = extract_timestamp m u := by
  have hv : ((u.bytes.getD 6 0 >>> 4) &&& 0x0F) = 8 := by
    simpa [is_v8] using h
  unfold extract_timestamp
  dsimp only
  rw [if_neg (fun hc => hc hv), if_neg (fun hc => hc hv)]

/-- A decision id derived from a v8 conversation does not depend on the
caller's clock. -/
theorem decision_id_is_v8 (n m : Nat) (p : UUID) (t : String) (c : UUID)
    (h : is_v8 c = true) : decision_id n p t c = decision_id m p t c := by
  unfold decision_id
  rw [extract_timestamp_is_v8 n m c h]

/-- C1 (corrected): first-ever upsert inserts, allocates a display id and
embeds once; an identical repeat (the conversation id being v8, so the
content address is clock-independent) validates with zero embeddings; but
a repeat with the same conversation and project and **changed text**
derives a *new* content address and therefore **inserts a second
decision** (one embedding) — it does not take the `updated` branch, which
is reachable only when the stored hash differs while the derived uuid
collides. -/
theorem C1_upsert_trichotomy (env1 env2 env3 : UpsertEnv) (a a' : UpsertArgs)
    (db : DecisionDB)
    (hfresh : db.decisions.find? (fun d => d.uuid ==
      (decision_id env1.nowMs a.project_uuid a.text
        a.originated_conversation_id).str) = none)
    (hv8 : is_v8 a.originated_conversation_id = true)
    (_ha' : a'.project_uuid = a.project_uuid ∧
      a'.originated_conversation_id = a.originated_conversation_id)
    (hne : (decision_id env3.nowMs a'.project_uuid a'.text
        a'.originated_conversation_id).str ≠
      (decision_id env1.nowMs a.project_uuid a.text
        a.originated_conversation_id).str)
    (hfresh' : db.decisions.find? (fun d => d.uuid ==
      (decision_id env3.nowMs a'.project_uuid a'.text
        a'.originated_conversation_id).str) = none) :
    ((upsert_decision env1 a db).2.action = "inserted" ∧
     (upsert_decision env1 a db).2.global_display_id =
       some (allocate_display_id env1.now db.counters a.project "decision").2 ∧
     (upsert_decision env1 a db).1.embedCalls = db.embedCalls + 1) ∧
    ((upsert_decision env2 a (upsert_decision env1 a db).1).2.action =
       "validated" ∧
     (upsert_decision env2 a (upsert_decision env1 a db).1).1.embedCalls =
       (upsert_decision env1 a db).1.embedCalls) ∧
    ((upsert_decision env3 a' (upsert_decision env1 a db).1).2.action =
       "inserted" ∧
     (upsert_decision env3 a' (upsert_decision env1 a db).1).1.embedCalls =
       (upsert_decision env1 a db).1.embedCalls + 1) := by
  have h1 := upsert_fresh_eq env1 a db hfresh
  refine ⟨?_, ?_, ?_⟩
  · rw [h1]
    exact insertDecision_frame env1 a _ _ db
  · rw [h1]
    obtain ⟨d0, hx, hh0⟩ := insertDecision_find_self env1 a
      (decision_id env1.nowMs a.project_uuid a.text
        a.originated_conversation_id).str
      ((sha256Hex a.text).take 16) db hfresh
    have hhash : (d0.text_hash == (sha256Hex a.text).take 16) = true := by
      simp [hh0]
    have hfind2 : (insertDecision env1 a
        (decision_id env1.nowMs a.project_uuid a.text
          a.originated_conversation_id).str
        ((sha256Hex a.text).take 16) db).1.decisions.find?
        (fun d => d.uuid ==
          (decision_id env2.nowMs a.project_uuid a.text
            a.originated_conversation_id).str) = some d0 := by
      rw [decision_id_is_v8 env2.nowMs env1.nowMs _ _ _ hv8]
      exact hx
    rw [upsert_validated_eq env2 a _ d0 hfind2 hhash]
    exact validateDecision_frame env2 _ _
  · rw [h1]
    have hfind3 := insertDecision_find_ne env1 a
      (decision_id env1.nowMs a.project_uuid a.text
        a.originated_conversation_id).str
      ((sha256Hex a.text).take 16)
      (decision_id env3.nowMs a'.project_uuid a'.text
        a'.originated_conversation_id).str db hne hfresh'
    rw [upsert_fresh_eq env3 a' _ hfind3]
    refine ⟨(insertDecision_frame env3 a' _ _ _).1,
      (insertDecision_frame env3 a' _ _ _).2.2⟩

/-- C1 counterexample: from an empty store, upserting a decision and then
upserting the same conversation and project with **changed text** yields
`action = "inserted"` — a second decision under a new content address —
not the `action = "updated"` the claim requires. -/
theorem C1_counterexample :
    (upsert_decision c1Env2 c1B
      (upsert_decision c1Env1 c1A c1Db0).1).2.action = "inserted" ∧
    ¬ (upsert_decision c1Env2 c1B
      (upsert_decision c1Env1 c1A c1Db0).1).2.action = "updated" := by
  constructor
  · decide
  · decide

/-- C1 witness: the trichotomy applied to the concrete fixtures — insert,
clock-shifted identical repeat (validated), clock-shifted changed-text
repeat (inserted again). -/
theorem C1_upsert_trichotomy_witness :
    (c1Db0.decisions.find? (fun d => d.uuid ==
      (decision_id c1Env1.nowMs c1A.project_uuid c1A.text
        c1A.originated_conversation_id).str) = none) ∧
    (is_v8 c1A.originated_conversation_id = true) ∧
    (c1B.project_uuid = c1A.project_uuid ∧
      c1B.originated_conversation_id = c1A.originated_conversation_id) ∧
    ((decision_id c1Env2.nowMs c1B.project_uuid c1B.text
        c1B.originated_conversation_id).str ≠
      (decision_id c1Env1.nowMs c1A.project_uuid c1A.text
        c1A.originated_conversation_id).str) ∧
    (((upsert_decision c1Env1 c1A c1Db0).2.action = "inserted" ∧
      (upsert_decision c1Env1 c1A c1Db0).2.global_display_id =
        some (allocate_display_id c1Env1.now c1Db0.counters c1A.project
          "decision").2 ∧
      (upsert_decision c1Env1 c1A c1Db0).1.embedCalls =
        c1Db0.embedCalls + 1) ∧
     ((upsert_decision c1Env2 c1A
        (upsert_decision c1Env1 c1A c1Db0).1).2.action = "validated" ∧
      (upsert_decision c1Env2 c1A
        (upsert_decision c1Env1 c1A c1Db0).1).1.embedCalls =
        (upsert_decision c1Env1 c1A c1Db0).1.embedCalls) ∧
     ((upsert_decision c1Env2 c1B
        (upsert_decision c1Env1 c1A c1Db0).1).2.action = "inserted" ∧
      (upsert_decision c1Env2 c1B
        (upsert_decision c1Env1 c1A c1Db0).1).1.embedCalls =
        (upsert_decision c1Env1 c1A c1Db0).1.embedCalls + 1)) :=
  ⟨rfl, by decide, ⟨rfl, rfl⟩, by decide,
   C1_upsert_trichotomy c1Env1 c1Env2 c1Env2 c1A c1B c1Db0
     rfl (by decide) ⟨rfl, rfl⟩ (by decide) rfl⟩

end VectorDB
